import Mathlib

/-!
Verification development for the lyftr-scraper repository.

The embedding models the adaptive extraction pipeline of `app/scraper.py`,
`app/parser.py` and `app/playwright_helper.py`:

* HTML parsing / CSS selection (the selectolax library) and the HTTP /
  browser transports are external collaborators; they are modelled as
  explicit data (`Element`, `Tree`) and as function parameters
  (`String → DomTree`, fetch outcomes), exactly at the boundary the spec
  draws.
* Python strings are modelled as Lean `String` / `List Char`; Python's
  truthiness of a string is emptiness; `str.lower`, `str.strip`,
  `str.find`, slicing, `in` and the two regular expressions of
  `_needs_js_rendering` are implemented character by character below.
-/

/-! ## Python-style string primitives -/

/-- Python whitespace (`\s` over ASCII input): space, tab, newline,
carriage return, vertical tab, form feed. -/
def isPyWs (c : Char) : Bool :=
  c = ' ' || c = '\t' || c = '\n' || c = '\r' || c = '\x0b' || c = '\x0c'

/-- `str.lower()` (ASCII). -/
def pyLower (s : String) : String := String.mk (s.data.map Char.toLower)

/-- `needle in haystack` for Python strings, on char lists. -/
def containsSub (pat : List Char) : List Char → Bool
  | [] => pat.isEmpty
  | c :: t => pat.isPrefixOf (c :: t) || containsSub pat t

/-- `pat in s` for Python strings. -/
def strIn (pat s : String) : Bool := containsSub pat.data s.data

/-- `haystack.find(pat)`: index of the first occurrence, `none` for Python's `-1`. -/
def findSub (pat : List Char) : List Char → Option Nat
  | [] => if pat.isEmpty then some 0 else none
  | c :: t => if pat.isPrefixOf (c :: t) then some 0 else (findSub pat t).map (· + 1)

/-- Python slice `l[a:b]` (for non-negative bounds). -/
def pySlice (l : List Char) (a b : Nat) : List Char := (l.take b).drop a

/-- `str.strip()` on char lists. -/
def pyStripL (l : List Char) : List Char :=
  ((l.dropWhile isPyWs).reverse.dropWhile isPyWs).reverse

/-- `str.strip()`. -/
def pyStrip (s : String) : String := String.mk (pyStripL s.data)

/-- `s.startswith(pre)`. -/
def pyStartsWith (pre s : String) : Bool := pre.data.isPrefixOf s.data


/-- `re.sub(r'\s+', ' ', text)`, as a one-pass scan: the flag says whether
the previous character was inside a whitespace run (already replaced by
one space). -/
def collapseWsAux : Bool → List Char → List Char
  | _, [] => []
  | inWs, c :: t =>
    if isPyWs c then
      if inWs then collapseWsAux true t else ' ' :: collapseWsAux true t
    else c :: collapseWsAux false t

/-- `re.sub(r'\s+', ' ', text)`: collapse every whitespace run to one space. -/
def collapseWsL (l : List Char) : List Char := collapseWsAux false l

/-- Case-insensitive prefix test: `pat` (already lowercase) against `l`;
returns the remainder of `l` after the matched prefix. -/
def ciPrefix (pat : List Char) (l : List Char) : Option (List Char) :=
  match pat, l with
  | [], rest => some rest
  | _ :: _, [] => none
  | p :: ps, c :: cs => if c.toLower = p then ciPrefix ps cs else none

/-- Consume `[^>]*>`: drop everything up to and including the next `>`. -/
def scanToGt : List Char → Option (List Char)
  | [] => none
  | c :: t => if c = '>' then some t else scanToGt t

/-- Find the first case-insensitive occurrence of `pat` and return the
remainder after it. -/
def findCiAfter (pat : List Char) : List Char → Option (List Char)
  | [] => if pat.isEmpty then some [] else none
  | c :: t =>
    match ciPrefix pat (c :: t) with
    | some rest => some rest
    | none => findCiAfter pat t


/-- Worker for `removeTagPair`; the fuel argument only makes the recursion
structural, `fuel ≥ l.length` is always enough because every recursive call
consumes at least one character. -/
def removeTagPairAux (name : List Char) : Nat → List Char → List Char
  | 0, l => l
  | _, [] => []
  | fuel + 1, c :: t =>
    match ciPrefix ('<' :: name) (c :: t) with
    | some afterOpen =>
      match scanToGt afterOpen with
      | some afterGt =>
        match findCiAfter ('<' :: '/' :: (name ++ ['>'])) afterGt with
        | some afterClose => removeTagPairAux name fuel afterClose
        | none => c :: removeTagPairAux name fuel t
      | none => c :: removeTagPairAux name fuel t
    | none => c :: removeTagPairAux name fuel t

/-- `re.sub(r'<NAME[^>]*>.*?</NAME>', '', s, flags=DOTALL|IGNORECASE)`:
leftmost match, shortest body, resume scanning after the removed match.
An opening tag with no closing counterpart is left in place (the regular
expression does not match it). -/
def removeTagPair (name l : List Char) : List Char := removeTagPairAux name l.length l

/-- Worker for `replaceTags` (fuel as in `removeTagPairAux`). -/
def replaceTagsAux : Nat → List Char → List Char
  | 0, l => l
  | _, [] => []
  | fuel + 1, c :: t =>
    if c = '<' then
      match t.dropWhile (fun x => !(x = '>')) with
      | [] => c :: replaceTagsAux fuel t
      | _ :: rest =>
        if (t.takeWhile (fun x => !(x = '>'))).isEmpty then c :: replaceTagsAux fuel t
        else ' ' :: replaceTagsAux fuel rest
    else c :: replaceTagsAux fuel t

/-- `re.sub(r'<[^>]+>', ' ', s)`: each complete tag becomes one space.
`<>` and an unterminated `<` are not matched and stay. -/
def replaceTags (l : List Char) : List Char := replaceTagsAux l.length l

/-! ## Strategy classifier: `UniversalScraper._needs_js_rendering`
(src/app/scraper.py lines 228-301). -/

/-- URL fragments that force JS rendering (scraper.py `js_url_patterns`). -/
def jsUrlPatterns : List String := ["/scroll", "/js", "ajax"]

/-- JS framework root markers (scraper.py `js_markers`). -/
def jsMarkers : List String :=
  ["data-reactroot", "data-react-helmet", "__next", "_next/static",
   "id=\"__nuxt\"", "ng-app", "v-app", "data-vue-", "v-cloak"]

/-- Infinite scroll indicators (scraper.py `infinite_scroll_indicators`). -/
def infiniteScrollIndicators : List String :=
  ["infinite-scroll", "infinite_scroll", "data-infinite",
   "scroll-container", "lazy-load", "data-scroll"]

/-- `any(marker in html_lower for marker in js_markers)`. -/
def hasJsFrameworkMarker (html : String) : Bool :=
  jsMarkers.any fun m => strIn m (pyLower html)

/-- Length of the visible `<body>` text: locate `<body`/`</body>` in the
lowered markup, slice the original markup, strip `<script>`/`<style>`
blocks, turn remaining tags into spaces, strip, measure.  `none` models
`find` returning `-1` (body not locatable). -/
def bodyTextLength (html : String) : Option Nat :=
  let htmlLower := pyLower html
  match findSub "<body".data htmlLower.data, findSub "</body>".data htmlLower.data with
  | some bs, some be =>
    let bodyContent := pySlice html.data bs be
    let clean1 := removeTagPair "script".data bodyContent
    let clean2 := removeTagPair "style".data clean1
    some (pyStripL (replaceTags clean2)).length
  | _, _ => none

/-- `UniversalScraper._needs_js_rendering(html, url)`. -/
def needsJsRendering (html url : String) : Bool :=
  let urlLower := pyLower url
  if jsUrlPatterns.any (fun p => strIn p urlLower) then true
  else
    let hasJsFramework := hasJsFrameworkMarker html
    if infiniteScrollIndicators.any (fun m => strIn m (pyLower html)) then true
    else
      match bodyTextLength html with
      | none => true
      | some textLength =>
        if textLength < 500 then true
        else if hasJsFramework = true ∧ textLength < 2000 then true
        else false


/-! ## `urllib.parse` model (external library boundary)

`urljoin` as CPython implements it, over char lists.  Path parameters
(`;params`) are not split out (they stay inside the path component), and
the whitespace/control-character stripping of recent CPython is omitted;
neither occurs in the URLs this repository handles. -/

/-- Schemes for which relative joining is defined (`urllib.parse.uses_relative`). -/
def usesRelative : List String :=
  ["", "ftp", "http", "gopher", "nntp", "imap", "wais", "file", "https", "shttp",
   "mms", "prospero", "rtsp", "rtspu", "sftp", "svn", "svn+ssh", "ws", "wss"]

/-- Schemes that carry a network location (`urllib.parse.uses_netloc`). -/
def usesNetloc : List String :=
  ["", "ftp", "http", "gopher", "nntp", "telnet", "imap", "wais", "file", "mms",
   "https", "shttp", "snews", "prospero", "rtsp", "rtspu", "rsync", "svn",
   "svn+ssh", "sftp", "nfs", "git", "git+ssh", "ws", "wss"]

/-- `urllib.parse.scheme_chars`. -/
def isSchemeChar (c : Char) : Bool := c.isAlphanum || c = '+' || c = '-' || c = '.'

/-- The five components `urlsplit` produces. -/
structure SplitUrl where
  scheme : List Char
  netloc : List Char
  path : List Char
  query : List Char
  fragment : List Char

/-- `l.split(sep, 1)`: text before the first `sep`, and the remainder after
it when `sep` occurs. -/
def breakAtChar (sep : Char) : List Char → List Char × Option (List Char)
  | [] => ([], none)
  | c :: t =>
    if c = sep then ([], some t)
    else
      let p := breakAtChar sep t
      (c :: p.1, p.2)

/-- `urllib.parse.urlsplit`. -/
def urlsplitL (url : List Char) : SplitUrl :=
  let pre := url.takeWhile (fun c => !(c = ':'))
  let schemeRest :=
    if pre.length < url.length && !pre.isEmpty && (pre.headD ' ').isAlpha
        && pre.all isSchemeChar
    then (pre.map Char.toLower, url.drop (pre.length + 1))
    else ([], url)
  let scheme := schemeRest.1
  let rest := schemeRest.2
  let netlocRest :=
    if rest.take 2 = ['/', '/'] then
      let nl := (rest.drop 2).takeWhile (fun c => !(c = '/' || c = '?' || c = '#'))
      (nl, rest.drop (2 + nl.length))
    else ([], rest)
  let netloc := netlocRest.1
  let p1 := breakAtChar '#' netlocRest.2
  let fragment := p1.2.getD []
  let p2 := breakAtChar '?' p1.1
  ⟨scheme, netloc, p2.1, p2.2.getD [], fragment⟩

/-- `urllib.parse.urlunsplit`. -/
def urlunsplitL (s : SplitUrl) : List Char :=
  let url := s.path
  let url :=
    if !s.netloc.isEmpty || url.take 2 = ['/', '/'] then
      '/' :: '/' :: (s.netloc ++ (if !url.isEmpty && url.take 1 ≠ ['/'] then '/' :: url else url))
    else url
  let url := if !s.scheme.isEmpty then s.scheme ++ ':' :: url else url
  let url := if !s.query.isEmpty then url ++ '?' :: s.query else url
  if !s.fragment.isEmpty then url ++ '#' :: s.fragment else url

/-- `segments[1:-1] = filter(None, segments[1:-1])` of `urljoin`. -/
def filterMidEmpties : List (List Char) → List (List Char)
  | [] => []
  | [x] => [x]
  | x :: rest => x :: (rest.dropLast.filter (fun s => !s.isEmpty) ++ [rest.getLastD []])

/-- The `'..'` / `'.'` segment resolution loop of `urljoin`. -/
def resolveSegs (segs : List (List Char)) : List (List Char) :=
  segs.foldl
    (fun acc seg =>
      if seg = ['.', '.'] then acc.dropLast
      else if seg = ['.'] then acc
      else acc ++ [seg])
    []

/-- `urllib.parse.urljoin`. -/
def pyUrljoinL (base url : List Char) : List Char :=
  if base.isEmpty then url
  else if url.isEmpty then base
  else
    let b := urlsplitL base
    let u := urlsplitL url
    let scheme := if u.scheme.isEmpty then b.scheme else u.scheme
    if !(scheme = b.scheme && (usesRelative.map String.data).contains scheme) then url
    else
      if (usesNetloc.map String.data).contains scheme && !u.netloc.isEmpty then
        urlunsplitL ⟨scheme, u.netloc, u.path, u.query, u.fragment⟩
      else
        let netloc := if (usesNetloc.map String.data).contains scheme then b.netloc else u.netloc
        if u.path.isEmpty then
          let query := if u.query.isEmpty then b.query else u.query
          urlunsplitL ⟨scheme, netloc, b.path, query, u.fragment⟩
        else
          let baseParts := b.path.splitOn '/'
          let baseParts := if baseParts.getLastD [] ≠ [] then baseParts.dropLast else baseParts
          let segments :=
            if u.path.take 1 = ['/'] then u.path.splitOn '/'
            else filterMidEmpties (baseParts ++ u.path.splitOn '/')
          let resolved := resolveSegs segments
          let resolved :=
            if segments.getLastD [] = ['.'] || segments.getLastD [] = ['.', '.']
            then resolved ++ [[]] else resolved
          let joined := List.intercalate ['/'] resolved
          urlunsplitL ⟨scheme, netloc, (if joined.isEmpty then ['/'] else joined), u.query, u.fragment⟩

/-- `urllib.parse.urljoin` on strings. -/
def pyUrljoin (base url : String) : String := String.mk (pyUrljoinL base.data url.data)


/-! ## Document model (the JSON shapes of parser.py / scraper.py) -/

structure Link where
  text : String
  href : String
deriving DecidableEq

structure Image where
  src : String
  alt : String
deriving DecidableEq

structure Content where
  headings : List String
  text : String
  links : List Link
  images : List Image
  lists : List (List String)
  tables : List (List (List String))
deriving DecidableEq

structure Section where
  id : String
  type : String
  label : String
  sourceUrl : String
  content : Content
  rawHtml : String
  truncated : Bool
deriving DecidableEq

/-- A `meta` object.  The parser leaves `strategy` empty; the orchestrator
sets it afterwards (`result["meta"]["strategy"] = strategy`). -/
structure Meta where
  title : String
  description : String
  language : String
  canonical : Option String
  strategy : String
deriving DecidableEq

/-! ## The selectolax boundary

selectolax is an external collaborator (a DOM/CSS-selector query facility).
An `Element` records, as data, the result of every primitive query the
parser runs against one live DOM node; `nodeId` models CPython's
`id(element)` identity token used by the already-processed set.  A `Tree`
answers CSS-selector queries; `headingSections` holds, one per `h1`/`h2`/
`h3` of the document, the standalone fragment node that
`_extract_by_headings` builds at the boundary by concatenating the heading
with its following siblings and re-parsing the markup (parser.py lines
184-202). -/

structure Anchor where
  href : Option String
  text : String
deriving DecidableEq

structure Img where
  src : Option String
  dataSrc : Option String
  alt : String
deriving DecidableEq

structure Element where
  nodeId : Nat
  tag : String
  attrs : List (String × String)
  textPlain : String
  textStrip : String
  textSep : String
  headingTexts : List String
  anchors : List Anchor
  imgs : List Img
  listItems : List (List String)
  tableRows : List (List (List String))
  htmlStr : String
deriving DecidableEq

structure DomTree where
  css : String → List Element
  headingSections : List Element

/-- `element.attributes.get(key)`. -/
def attrGet (e : Element) (key : String) : Option String :=
  (e.attrs.find? (fun p => p.1 = key)).map Prod.snd

/-- `tree.css_first(sel)`. -/
def cssFirst (t : DomTree) (sel : String) : Option Element := (t.css sel).head?

/-! ## `HTMLParser` (src/app/parser.py) -/

/-- `self.max_raw_html_length`. -/
def maxRawHtmlLength : Nat := 2000

/-- `HTMLParser._extract_headings`: `h.text().strip()` per heading, empty
ones dropped (`headingTexts` carries the raw per-level query results in
order h1..h6). -/
def extractHeadings (e : Element) : List String :=
  (e.headingTexts.map pyStrip).filter (fun t => t ≠ "")

/-- `HTMLParser._extract_text`: visible text after `script`/`style`
decompose (already reflected in `textSep`), whitespace collapsed, stripped. -/
def extractText (e : Element) : String :=
  pyStrip (String.mk (collapseWsL e.textSep.data))

/-- One iteration of the link loop of `HTMLParser._extract_links`;
state is (links so far, seen resolved hrefs). -/
def extractLinksStep (base : String) (st : List Link × List String) (a : Anchor) :
    List Link × List String :=
  let href := a.href.getD ""
  let text := pyStrip a.text
  if href = "" || pyStartsWith "#" href || pyStartsWith "javascript:" href then st
  else
    let absoluteHref := pyUrljoin base href
    if st.2.contains absoluteHref then st
    else
      (st.1 ++ [{ text := if text = "" then "(no text)" else text, href := absoluteHref }],
       st.2 ++ [absoluteHref])

/-- `HTMLParser._extract_links`. -/
def extractLinks (e : Element) (base : String) : List Link :=
  (e.anchors.foldl (extractLinksStep base) ([], [])).1.take 50

/-- One iteration of the image loop of `HTMLParser._extract_images`
(`src = attributes.get('src') or attributes.get('data-src')`). -/
def extractImagesStep (base : String) (st : List Image × List String) (im : Img) :
    List Image × List String :=
  let src := if (im.src.getD "") ≠ "" then im.src.getD "" else im.dataSrc.getD ""
  if src = "" then st
  else
    let absoluteSrc := pyUrljoin base src
    if st.2.contains absoluteSrc then st
    else (st.1 ++ [{ src := absoluteSrc, alt := im.alt }], st.2 ++ [absoluteSrc])

/-- `HTMLParser._extract_images`. -/
def extractImages (e : Element) (base : String) : List Image :=
  (e.imgs.foldl (extractImagesStep base) ([], [])).1.take 20

/-- `HTMLParser._extract_lists`. -/
def extractLists (e : Element) : List (List String) :=
  ((e.listItems.map (fun items => (items.map pyStrip).filter (fun t => t ≠ ""))).filter
      (fun items => items ≠ [])).take 10

/-- `HTMLParser._extract_tables`. -/
def extractTables (e : Element) : List (List (List String)) :=
  ((e.tableRows.map (fun rows =>
        (rows.map (fun cells => cells.map pyStrip)).filter (fun r => r ≠ []))).filter
      (fun rows => rows ≠ [])).take 5

/-- `str.split()` (whitespace split, no empty words). -/
def pySplitWsAux (acc : List Char) : List Char → List String
  | [] => if acc.isEmpty then [] else [String.mk acc.reverse]
  | c :: t =>
    if isPyWs c then
      if acc.isEmpty then pySplitWsAux [] t
      else String.mk acc.reverse :: pySplitWsAux [] t
    else pySplitWsAux (c :: acc) t

/-- `str.split()`. -/
def pySplitWs (s : String) : List String := pySplitWsAux [] s.data

/-- `HTMLParser._generate_label`. -/
def generateLabel (content : Content) (e : Element) : String :=
  match content.headings with
  | h :: _ => h
  | [] =>
    let ariaLabel := (attrGet e "aria-label").getD ""
    if ariaLabel ≠ "" then pyStrip ariaLabel
    else
      let title := (attrGet e "title").getD ""
      if title ≠ "" then pyStrip title
      else if content.text ≠ "" then
        let words := (pySplitWs content.text).take 7
        let label := String.intercalate " " words
        if words.length ≥ 7 then label ++ "..." else label
      else "Content"

/-- `HTMLParser._determine_section_type` (the model's elements always have
a tag and attributes, so the initial hasattr guard never fires). -/
def determineSectionType (e : Element) (defaultType : String) : String :=
  if e.tag = "nav" then "nav"
  else if e.tag = "header" then "hero"
  else if e.tag = "footer" then "footer"
  else
    let className := pyLower ((attrGet e "class").getD "")
    let idName := pyLower ((attrGet e "id").getD "")
    let combined := className ++ " " ++ idName
    if ["hero", "banner", "jumbotron"].any (fun w => strIn w combined) then "hero"
    else if ["nav", "menu", "navigation"].any (fun w => strIn w combined) then "nav"
    else if strIn "footer" combined then "footer"
    else if ["pricing", "price"].any (fun w => strIn w combined) then "pricing"
    else if ["faq", "question"].any (fun w => strIn w combined) then "faq"
    else if ["grid", "cards"].any (fun w => strIn w combined) then "grid"
    else if strIn "list" combined then "list"
    else defaultType

/-- `HTMLParser._parse_section` (total here: every call site passes an
existing node, so the `if not element` guard never fires). -/
def parseSection (e : Element) (base : String) (sectionId : Nat) (sectionType : String) :
    Section :=
  let content : Content :=
    { headings := extractHeadings e
      text := extractText e
      links := extractLinks e base
      images := extractImages e base
      lists := extractLists e
      tables := extractTables e }
  let label := generateLabel content e
  let specificType := determineSectionType e sectionType
  let rawHtml := e.htmlStr
  let truncated := rawHtml.length > maxRawHtmlLength
  { id := specificType ++ "-" ++ Nat.repr sectionId
    type := specificType
    label := label
    sourceUrl := base
    content := content
    rawHtml := if truncated then String.mk (rawHtml.data.take maxRawHtmlLength) else rawHtml
    truncated := truncated }

/-- `HTMLParser._extract_meta`. -/
def contentAttr (e? : Option Element) : Option String :=
  match e? with
  | some e =>
    match attrGet e "content" with
    | some c => if c = "" then none else some c
    | none => none
  | none => none

def extractMeta (t : DomTree) (base : String) : Meta :=
  let title :=
    match cssFirst t "title" with
    | some titleTag => pyStrip titleTag.textPlain
    | none =>
      match contentAttr (cssFirst t "meta[property=\"og:title\"]") with
      | some c => pyStrip c
      | none => ""
  let description :=
    match contentAttr (cssFirst t "meta[name=\"description\"]") with
    | some c => pyStrip c
    | none =>
      match contentAttr (cssFirst t "meta[property=\"og:description\"]") with
      | some c => pyStrip c
      | none => ""
  let language :=
    match cssFirst t "html" with
    | some htmlTag =>
      match attrGet htmlTag "lang" with
      | some lang => if lang ≠ "" then pyStrip lang else "en"
      | none => "en"
    | none => "en"
  let canonical :=
    match cssFirst t "link[rel=\"canonical\"]" with
    | some c =>
      match attrGet c "href" with
      | some href => if href ≠ "" then some (pyUrljoin base href) else none
      | none => none
    | none => none
  { title := title, description := description, language := language,
    canonical := canonical, strategy := "" }

/-! ## `HTMLParser._extract_sections` and its three strategies.

The phase state carries the growing section list, the identity set
`processed_elements` and the running `section_id`.  Each found section is
paired with the `nodeId` of the DOM node it was parsed from (a ghost trace:
the parser itself returns only the sections, recovered by `Prod.snd`). -/

structure ExtState where
  found : List (Nat × Section)
  processed : List Nat
  sid : Nat

/-- The landmark table of `_extract_sections` (tag, section type). -/
def landmarks : List (String × String) :=
  [("header", "header"), ("nav", "nav"), ("main", "section"), ("section", "section"),
   ("article", "section"), ("aside", "section"), ("footer", "footer")]

/-- Strategy 1, one element: skip if already processed, mark processed,
keep the parsed section only when its text is non-empty. -/
def landmarkStep (base : String) (sectionType : String) (st : ExtState) (e : Element) :
    ExtState :=
  if st.processed.contains e.nodeId then st
  else
    let processed := st.processed ++ [e.nodeId]
    let sectionData := parseSection e base st.sid sectionType
    if pyStrip sectionData.content.text ≠ "" then
      { found := st.found ++ [(e.nodeId, sectionData)], processed := processed, sid := st.sid + 1 }
    else
      { st with processed := processed }

/-- Strategy 1 over all landmark tags (parser.py lines 91-103). -/
def landmarkPhase (t : DomTree) (base : String) : ExtState :=
  landmarks.foldl (fun st p => (t.css p.1).foldl (landmarkStep base p.2) st)
    { found := [], processed := [], sid := 0 }

/-- `content_selectors` of `_extract_content_blocks`. -/
def contentSelectors : List String :=
  ["article", "div[class*=\"post\"]", "div[class*=\"item\"]", "div[class*=\"card\"]",
   "div[class*=\"content\"]", "div[class*=\"story\"]", "tr.athing"]

/-- Strategy 2, one element: skip if already processed, require more than
50 characters of `text(strip=True)`, then mark processed and parse. -/
def contentBlockStep (base : String) (st : ExtState) (e : Element) : ExtState :=
  if st.processed.contains e.nodeId then st
  else if e.textStrip.length > 50 then
    let processed := st.processed ++ [e.nodeId]
    let sectionData := parseSection e base st.sid "section"
    if pyStrip sectionData.content.text ≠ "" then
      { found := st.found ++ [(e.nodeId, sectionData)], processed := processed, sid := st.sid + 1 }
    else { st with processed := processed }
  else st

/-- Strategy 2 over all content selectors (parser.py lines 145-177). -/
def contentBlockPhase (t : DomTree) (base : String) (st : ExtState) : ExtState :=
  contentSelectors.foldl (fun st' sel => (t.css sel).foldl (contentBlockStep base) st') st

/-- How the extraction state evolves across strategy steps: the processed
set only grows, and every newly found section comes from a node that was
not yet processed at the start and is processed at the end (with no node
contributing twice among the new entries). -/
def extEvolve (st st' : ExtState) : Prop :=
  (∀ n ∈ st.processed, n ∈ st'.processed) ∧
    ∃ suffix : List (Nat × Section),
      st'.found = st.found ++ suffix ∧ (suffix.map Prod.fst).Nodup ∧
        ∀ q ∈ suffix, q.1 ∉ st.processed ∧ q.1 ∈ st'.processed

/-- Strategy 3 (`_extract_by_headings`): parse each pre-built heading
fragment; keep those with non-empty text. -/
def extractByHeadings (t : DomTree) (base : String) (startId : Nat) : List Section :=
  t.headingSections.enum.filterMap fun p =>
    let sectionData := parseSection p.2 base (startId + p.1) "section"
    if sectionData.content.text ≠ "" then some sectionData else none

/-- The fixed placeholder section (parser.py lines 125-141). -/
def placeholderSection (base : String) : Section :=
  { id := "default-0", type := "unknown", label := "Content", sourceUrl := base,
    content := { headings := [], text := "No content extracted", links := [], images := [],
                 lists := [], tables := [] },
    rawHtml := "", truncated := false }

/-- `HTMLParser._extract_sections` (the dead `main_content` computation of
lines 71-75 is omitted: its value is never used). -/
def extractSections (t : DomTree) (base : String) : List Section :=
  let s1 := landmarkPhase t base
  let s2 := if s1.found.length < 5 then contentBlockPhase t base s1 else s1
  let foundA := s2.found.map Prod.snd
  let foundB := if foundA.length < 3 then foundA ++ extractByHeadings t base s2.sid else foundA
  let foundC :=
    if foundB.isEmpty then
      match cssFirst t "body" with
      | some body => [parseSection body base 0 "unknown"]
      | none => []
    else foundB
  if foundC.isEmpty then [placeholderSection base] else foundC

/-- The result shape of `HTMLParser.parse`. -/
structure PageResult where
  url : String
  meta : Meta
  sections : List Section

/-- `HTMLParser.parse` (the selectolax parse of the markup string is the
function argument `selectolax`, applied at call sites). -/
def parsePage (t : DomTree) (base : String) : PageResult :=
  { url := base, meta := extractMeta t base, sections := extractSections t base }

/-! ## `UniversalScraper._parse_and_merge_pages` (scraper.py lines 401-435) -/

/-- The merger's renaming for a section of page `k` (`k ≥ 2`). -/
def renamePage (k : Nat) (s : Section) : Section :=
  { s with id := s.id ++ "-page" ++ Nat.repr k,
           label := s.label ++ " (Page " ++ Nat.repr k ++ ")" }

/-- Pages after the first, renamed with their 1-based page number (the
loop `enumerate(html_pages[1:], start=1)` with suffix `i+1`). -/
def mergeRest : Nat → List (List Section) → List Section
  | _, [] => []
  | k, p :: ps => p.map (renamePage k) ++ mergeRest (k + 1) ps

/-- All pages' sections merged: page 1 unmodified, later pages renamed. -/
def mergeSections (first : List Section) (rest : List (List Section)) : List Section :=
  first ++ mergeRest 2 rest

/-- `UniversalScraper._parse_and_merge_pages`.  An empty page list raises
`ValueError("No HTML pages to parse")`; a per-page parse in the model is
total, so the per-page `try/except` never skips a page. -/
def parseAndMergePages (selectolax : String → DomTree) (htmlPages : List String)
    (baseUrl : String) : Except String PageResult :=
  match htmlPages with
  | [] => .error "No HTML pages to parse"
  | h :: rest =>
    let result := parsePage (selectolax h) baseUrl
    if rest.isEmpty then .ok result
    else
      .ok { result with
            sections := mergeSections result.sections
              (rest.map fun page => (parsePage (selectolax page) baseUrl).sections) }

/-! ## Specification helpers for the merge claims -/

/-- Decimal digits of `n`, most significant first (shown below to agree
with `Nat.repr`, the model of Python's decimal formatting). -/
def decRepr (n : Nat) : List Char :=
  if h : n < 10 then [Nat.digitChar n]
  else decRepr (n / 10) ++ [Nat.digitChar (n % 10)]
decreasing_by exact Nat.div_lt_self (by omega) (by omega)

/-- Number of `'-'` characters in a string. -/
def dashCount (s : String) : Nat := s.data.count '-'

/-- The characters after the last `'-'` of a char list. -/
def afterLastDash (l : List Char) : List Char :=
  (l.reverse.takeWhile (fun c => !(c = '-'))).reverse

/-- The id/sourceUrl shape every section the parser produces has: an id
with exactly one dash (`<type>-<ordinal>`) and the page's base URL. -/
def sectionShaped (base : String) (s : Section) : Prop :=
  dashCount s.id = 1 ∧ s.sourceUrl = base

/-! ## scraper.py data shapes -/

structure ErrorEntry where
  message : String
  phase : String
  etype : Option String
deriving DecidableEq

structure Interactions where
  clicks : List String
  scrolls : Nat
  pages : List String
deriving DecidableEq

structure Document where
  url : String
  scrapedAt : String
  meta : Meta
  sections : List Section
  interactions : Interactions
  errors : List ErrorEntry
deriving DecidableEq

/-- A transport failure at the fetch boundary: `str(e)` and
`type(e).__name__`. -/
structure PyErr where
  msg : String
  etype : String
deriving DecidableEq

/-- The error categorization of `scrape` (scraper.py lines 66-79). -/
def categorizeStaticError (e : PyErr) : String :=
  if strIn "401" e.msg || strIn "Unauthorized" e.msg then "Authentication required"
  else if strIn "403" e.msg || strIn "Forbidden" e.msg then "Access forbidden"
  else if strIn "404" e.msg then "Page not found"
  else if strIn "ConnectError" e.etype then "Connection failed"
  else if strIn "Timeout" e.etype then "Request timeout"
  else e.etype

/-- The error entry appended on a failed static fetch (lines 81-85). -/
def staticFetchErrorEntry (e : PyErr) : ErrorEntry :=
  { message := categorizeStaticError e ++ ": " ++ e.msg, phase := "static-fetch",
    etype := some e.etype }

/-! ## `UniversalScraper._detect_static_pagination` (lines 303-328) -/

def paginationDetectSelectors : List String :=
  ["a.next", "li.next a", "a[rel=\"next\"]", ".pagination a", ".pager a"]

def urlPaginationPatterns : List String := ["/page-", "/page/", "?page="]

def detectStaticPagination (t : DomTree) (url : String) : Bool :=
  if paginationDetectSelectors.any (fun sel => !(t.css sel).isEmpty) then true
  else urlPaginationPatterns.any (fun p => strIn p (pyLower url))

/-! ## `UniversalScraper._static_paginate` (lines 330-399) -/

def paginateSelectors : List String :=
  ["li.next a", "a.next", "a[rel=\"next\"]", ".pagination a", "a.morelink"]

/-- The candidate scan of `_static_paginate`: the first element, in
selector priority order, whose `href` attribute is truthy and whose
lowered link text contains neither "prev" nor "previous". -/
def findNextHref (t : DomTree) : Option String :=
  paginateSelectors.findSome? fun sel =>
    (t.css sel).findSome? fun e =>
      match attrGet e "href" with
      | some href =>
        if href ≠ "" then
          let text := pyLower e.textPlain
          if !(strIn "prev" text) && !(strIn "previous" text) then some href else none
        else none
      | none => none

/-- The mutable state of the pagination loop: the collected snapshots, the
shared visited list `interactions["pages"]`, and `current_url`. -/
structure PagState where
  htmlPages : List String
  pages : List String
  currentUrl : String
deriving DecidableEq

/-- The `while pages_visited < self.max_pages` loop of `_static_paginate`.
The fuel is `max_pages - pages_visited`; `pages_visited` equals
`htmlPages.length` throughout.  Stops when no candidate survives, when the
resolved URL was already visited, or when the fetch fails (the collected
state is returned unchanged in each case). -/
def paginateLoop (selectolax : String → DomTree) (fetch : String → Except String String) :
    Nat → PagState → PagState
  | 0, st => st
  | fuel + 1, st =>
    match findNextHref (selectolax (st.htmlPages.getLastD "")) with
    | none => st
    | some nextHref =>
      let absoluteUrl := pyUrljoin st.currentUrl nextHref
      if st.pages.contains absoluteUrl then st
      else
        match fetch absoluteUrl with
        | .error _ => st
        | .ok pageHtml =>
          paginateLoop selectolax fetch fuel
            { htmlPages := st.htmlPages ++ [pageHtml],
              pages := st.pages ++ [absoluteUrl],
              currentUrl := absoluteUrl }

/-- `UniversalScraper._static_paginate(base_url, first_html, interactions)`:
`visited` is the shared `interactions["pages"]` (seeded `[url]` by
`scrape`); `html_pages` starts at `[first_html]` and `pages_visited` at 1. -/
def staticPaginate (selectolax : String → DomTree) (fetch : String → Except String String)
    (maxPages : Nat) (baseUrl firstHtml : String) (visited : List String) : PagState :=
  paginateLoop selectolax fetch (maxPages - 1)
    { htmlPages := [firstHtml], pages := visited, currentUrl := baseUrl }

/-- One of the three break conditions of `_static_paginate`, read off the
final state: no surviving "next" candidate, a candidate already visited,
or a failing fetch. -/
def pagTerminal (selectolax : String → DomTree) (fetch : String → Except String String)
    (st : PagState) : Prop :=
  match findNextHref (selectolax (st.htmlPages.getLastD "")) with
  | none => True
  | some nextHref =>
    st.pages.contains (pyUrljoin st.currentUrl nextHref) = true ∨
      ∃ msg, fetch (pyUrljoin st.currentUrl nextHref) = .error msg

/-! ## The scroll phase of `scrape_with_playwright`
(src/app/playwright_helper.py lines 279-321) -/

/-- What the live page reports to the scroll loop: `height i` is the value
of the i-th `document.body.scrollHeight` evaluation (two per round:
before and after the scroll), `count i` the i-th content-element count
(`count 0` is read before the loop). -/
structure ScrollEnv where
  height : Nat → Nat
  count : Nat → Nat

/-- The `for i in range(max_scrolls)` loop: arguments are remaining
rounds, current round index, `scrolls_performed`, `no_change_count` and
the tracked `initial_count`.  A round scrolls (counter up by one), then
stops if height and count are both exactly unchanged for the second
consecutive round. -/
def scrollLoop (env : ScrollEnv) : Nat → Nat → Nat → Nat → Nat → Nat
  | 0, _, s, _, _ => s
  | fuel + 1, r, s, nc, ic =>
    let prevHeight := env.height (2 * r)
    let newHeight := env.height (2 * r + 1)
    let newCount := env.count (r + 1)
    if newHeight = prevHeight ∧ newCount = ic then
      if nc + 1 ≥ 2 then s + 1
      else scrollLoop env fuel (r + 1) (s + 1) (nc + 1) ic
    else scrollLoop env fuel (r + 1) (s + 1) 0 newCount

/-- `interactions["scrolls"]` as recorded after the scroll phase of
`scrape_with_playwright(url, max_scrolls)`. -/
def scrapeScrolls (env : ScrollEnv) (maxScrolls : Nat) : Nat :=
  scrollLoop env maxScrolls 0 0 0 (env.count 0)

/-! ## `UniversalScraper.scrape` (scraper.py lines 38-173) -/

/-- Everything one `scrape` call consumes from the outside world: the
selectolax parse of a markup string, the initial static fetch outcome
(`_try_static_scrape`), the Playwright subprocess outcome (`_js_scrape`:
collected pages plus its interactions record), the paginator's per-page
fetches, and the clock reading used for `scrapedAt`. -/
structure ScrapeEnv where
  selectolax : String → DomTree
  fetchResult : Except PyErr String
  jsResult : Except String (List String × Interactions)
  pageFetch : String → Except String String
  now : String

/-- The single section of `_create_error_response`. -/
def errorSection (url errorMsg : String) : Section :=
  { id := "error-0", type := "unknown", label := "Error", sourceUrl := url,
    content := { headings := [], text := "Failed to scrape: " ++ errorMsg,
                 links := [], images := [], lists := [], tables := [] },
    rawHtml := "", truncated := false }

/-- `UniversalScraper._create_error_response` (lines 196-226). -/
def createErrorResponse (url errorMsg now : String) (interactions : Interactions)
    (errors : List ErrorEntry) : Document :=
  { url := url, scrapedAt := now,
    meta := { title := "Error", description := "Scraping failed", language := "en",
              canonical := none, strategy := "error" },
    sections := [errorSection url errorMsg],
    interactions := interactions, errors := errors }

/-- `UniversalScraper._validate_result` (lines 175-194).  The model's
documents carry every required field by type, so only the two content
assertions can fail; the result is the message of the first failing
`assert` (for an `AssertionError` e, `str(e)` is that message). -/
def validateResult (sections : List Section) : Option String :=
  if sections.isEmpty then some "sections must not be empty"
  else if sections.any (fun s => pyStrip s.content.text ≠ "") then none
  else some "At least one section must have non-empty content.text"

/-- Lines 147-164 of `scrape` plus its outer `except` (lines 166-173):
parse and merge the collected pages, attach timestamp / interactions /
errors / strategy, validate.  An exception — the `ValueError` of an empty
page list or a failed validation assert — is caught, appended to `errors`
with phase `"scrape"`, and turned into an error response. -/
def finalizeResult (env : ScrapeEnv) (url : String) (allHtmlPages : List String)
    (strategy : String) (interactions : Interactions) (errors : List ErrorEntry) : Document :=
  match parseAndMergePages env.selectolax allHtmlPages url with
  | .error msg =>
    createErrorResponse url msg env.now interactions
      (errors ++ [{ message := msg, phase := "scrape", etype := none }])
  | .ok result =>
    let doc : Document :=
      { url := result.url, scrapedAt := env.now,
        meta := { result.meta with strategy := strategy },
        sections := result.sections, interactions := interactions, errors := errors }
    match validateResult doc.sections with
    | none => doc
    | some msg =>
      createErrorResponse url msg env.now interactions
        (errors ++ [{ message := msg, phase := "scrape", etype := none }])

/-- `UniversalScraper.scrape` with the constructor configuration
`max_pages = 5`.  Branch structure of lines 53-146: a failed static fetch
forces the Playwright path; a successful fetch goes to Playwright only
when the markup is truthy and `_needs_js_rendering` holds, else to static
pagination when `_detect_static_pagination` holds, else stays a single
static page. -/
def scrape (env : ScrapeEnv) (url : String) : Document :=
  let interactions : Interactions := { clicks := [], scrolls := 0, pages := [url] }
  match env.fetchResult with
  | .error staticError =>
    let errors := [staticFetchErrorEntry staticError]
    match env.jsResult with
    | .ok jsOut => finalizeResult env url jsOut.1 "js-forced" jsOut.2 errors
    | .error _ =>
      let errors2 := errors ++
        [{ message := "All scraping methods failed", phase := "complete-failure", etype := none }]
      createErrorResponse url staticError.msg env.now interactions errors2
  | .ok html =>
    if html ≠ "" ∧ needsJsRendering html url = true then
      match env.jsResult with
      | .ok jsOut => finalizeResult env url jsOut.1 "js" jsOut.2 []
      | .error jsError =>
        let errors := [{ message := "JS rendering failed: " ++ jsError,
                         phase := "js-fallback", etype := none }]
        finalizeResult env url [html] "static-fallback" interactions errors
    else
      if detectStaticPagination (env.selectolax html) url then
        let pag := staticPaginate env.selectolax env.pageFetch 5 url html interactions.pages
        finalizeResult env url pag.htmlPages "static-paginated"
          { interactions with pages := pag.pages } []
      else
        finalizeResult env url [html] "static" interactions []

/-! ## Concrete fixtures (used by witnesses and counterexamples below) -/

/-- A DOM node with the given identity, tag and visible text. -/
def textElement (n : Nat) (tag text : String) : Element :=
  { nodeId := n, tag := tag, attrs := [], textPlain := text, textStrip := text,
    textSep := text, headingTexts := [], anchors := [], imgs := [], listItems := [],
    tableRows := [], htmlStr := "" }

/-- A tree answering only the `body` selector. -/
def bodyOnlyTree : DomTree :=
  { css := fun sel => if sel = "body" then [textElement 1 "body" "Hello world"] else [],
    headingSections := [] }

/-- A tree with no nodes at all. -/
def emptyTree : DomTree := { css := fun _ => [], headingSections := [] }

/-- Static fetch succeeds with markup `"x"`, the Playwright run succeeds
with one page, pagination fetches fail. -/
def envJsOk : ScrapeEnv :=
  { selectolax := fun _ => bodyOnlyTree,
    fetchResult := .ok "x",
    jsResult := .ok (["jshtml"], { clicks := ["t"], scrolls := 2, pages := ["u"] }),
    pageFetch := fun _ => .error "net",
    now := "2026-10-12T00:00:00+00:00" }

/-- A URL that needs rendering (contains "ajax") and also shows static
pagination (contains "?page="). -/
def bothFlagsUrl : String := "https://e.com/items?page=2&ajax=1"

/-- Both acquisition paths fail: a 403 static fetch, then a Playwright
failure with a recognizable message. -/
def envBothFail : ScrapeEnv :=
  { selectolax := fun _ => bodyOnlyTree,
    fetchResult := .error
      { msg := "Access forbidden (403). Site may be blocking automated requests.",
        etype := "Exception" },
    jsResult := .error "PLAYWRIGHT-BOOM",
    pageFetch := fun _ => .error "net",
    now := "2026-10-12T00:00:00+00:00" }

/-- An anchor whose href is an absolute non-http URL. -/
def mailtoElement : Element :=
  { nodeId := 3, tag := "div", attrs := [], textPlain := "contact",
    textStrip := "contact", textSep := "contact", headingTexts := [],
    anchors := [{ href := some "mailto:user@example.com", text := "Mail" }],
    imgs := [], listItems := [], tableRows := [], htmlStr := "" }

/-- The scheme component of a URL, per the `urlsplit` model. -/
def urlScheme (s : String) : String := String.mk (urlsplitL s.data).scheme

/-- A "next" link element for the paginator fixtures. -/
def nextLinkElement (href : String) : Element :=
  { nodeId := 2, tag := "a", attrs := [("href", href)], textPlain := "Next",
    textStrip := "Next", textSep := "Next", headingTexts := [], anchors := [],
    imgs := [], listItems := [], tableRows := [], htmlStr := "" }

/-- A tree whose only match is `a.next` with the given href. -/
def nextLinkTree (href : String) : DomTree :=
  { css := fun sel => if sel = "a.next" then [nextLinkElement href] else [],
    headingSections := [] }

/-- A two-page site: page markup `"P1"` links to `/page/2`, page `"P2"`
has no further next link. -/
def twoPageSite : String → DomTree := fun h =>
  if h = "P1" then nextLinkTree "/page/2" else emptyTree

def twoPageFetch : String → Except String String := fun u =>
  if u = "http://q.com/page/2" then .ok "P2" else .error "connection refused"

/-- Scroll measurements that never change. -/
def constScrollEnv (h c : Nat) : ScrollEnv := { height := fun _ => h, count := fun _ => c }

/-- Scroll measurements whose height strictly shrinks at every reading
while the element count stays fixed. -/
def shrinkingScrollEnv : ScrollEnv := { height := fun i => 100 - i, count := fun _ => 3 }

/-- A tree whose body carries the given text (used per page by the merge
fixtures). -/
def pageBodyTree (text : String) : DomTree :=
  { css := fun sel => if sel = "body" then [textElement 1 "body" text] else [],
    headingSections := [] }

/-- Two pages of markup, each parsed to one body section. -/
def twoPageParse : String → DomTree := fun h =>
  if h = "H1" then pageBodyTree "Alpha text" else pageBodyTree "Beta text"

/-- The merged result of the two-page fixture. -/
def c4Res : PageResult :=
  { url := "http://base/", meta := extractMeta (twoPageParse "H1") "http://base/",
    sections := mergeSections (extractSections (twoPageParse "H1") "http://base/")
      (["H2"].map fun pg => extractSections (twoPageParse pg) "http://base/") }

/-- The C3 counterexample markup: a JS-framework root marker together with
2000 characters of visible body text. -/
def c3Filler : List Char := List.replicate 2000 'a'

def c3Html : String :=
  "<html><body><div data-reactroot>" ++ String.mk c3Filler ++ "</div></body></html>"

def c3Url : String := "https://example.com/"

/-- Small marker-bearing markup for the C3 witness. -/
def c3SmallHtml : String := "<html><body><div data-reactroot>tiny</div></body></html>"

/-- The well-formedness C1 asks of a document. -/
def docWellFormed (d : Document) : Prop :=
  d.sections ≠ [] ∧ ∃ s ∈ d.sections, pyStrip s.content.text ≠ ""


/-! ## Basic facts about the string primitives -/

theorem lengthDropWhileLe (p : Char → Bool) (l : List Char) :
    (l.dropWhile p).length ≤ l.length := by
  induction l with
  | nil => simp [List.dropWhile]
  | cons c t ih =>
    by_cases h : p c
    · simp only [List.dropWhile, h]
      exact Nat.le_succ_of_le ih
    · simp [List.dropWhile, h]

theorem ciPrefix_length {pat l r : List Char} (h : ciPrefix pat l = some r) :
    r.length + pat.length = l.length := by
  induction pat generalizing l r with
  | nil => cases l <;> simp_all [ciPrefix]
  | cons p ps ih =>
    cases l with
    | nil => simp [ciPrefix] at h
    | cons c cs =>
      simp only [ciPrefix] at h
      split at h
      · have := ih h
        simp [List.length_cons]
        omega
      · exact absurd h (by simp)

theorem scanToGt_length {l r : List Char} (h : scanToGt l = some r) :
    r.length < l.length := by
  induction l with
  | nil => simp [scanToGt] at h
  | cons c t ih =>
    simp only [scanToGt] at h
    split at h
    · cases h; simp
    · exact Nat.lt_succ_of_lt (ih h)

theorem findCiAfter_length {pat l r : List Char} (h : findCiAfter pat l = some r) :
    r.length ≤ l.length := by
  induction l with
  | nil =>
    simp only [findCiAfter] at h
    split at h
    · cases h; simp
    · simp at h
  | cons c t ih =>
    simp only [findCiAfter] at h
    split at h
    next heq =>
      cases h
      have := ciPrefix_length heq
      omega
    next => exact Nat.le_succ_of_le (ih h)

example : needsJsRendering "<html><body>hi</body></html>" "https://x.com/scroll-feed" = true := by decide
example : needsJsRendering "<html><body>hi</body></html>" "https://x.com/a" = true := by decide
example : needsJsRendering "<html><div>no body marker</div></html>" "" = true := by decide

example : pyUrljoin "http://example.com/a/b" "c/d" = "http://example.com/a/c/d" := by decide
example : pyUrljoin "http://example.com/a/b" "/c" = "http://example.com/c" := by decide
example : pyUrljoin "http://example.com/a/" "../x" = "http://example.com/x" := by decide
example : pyUrljoin "https://example.com/page" "mailto:user@x.com" = "mailto:user@x.com" := by decide
example : pyUrljoin "http://example.com/a" "#frag" = "http://example.com/a#frag" := by decide
example : pyUrljoin "http://e.com/p/" "page/2" = "http://e.com/p/page/2" := by decide
example : pyUrljoin "http://e.com/p" "?q=1" = "http://e.com/p?q=1" := by decide
example : pyUrljoin "http://e.com" "x" = "http://e.com/x" := by decide
example : pyUrljoin "http://quotes.toscrape.com/" "/page/2/" = "http://quotes.toscrape.com/page/2/" := by decide
example : pyUrljoin "https://news.ycombinator.com/news" "news?p=2" = "https://news.ycombinator.com/news?p=2" := by decide
example : pyUrljoin "http://e.com/a/b/c" "./d" = "http://e.com/a/b/d" := by decide
example : pyUrljoin "http://e.com/a" "//other.com/z" = "http://other.com/z" := by decide
example : pyUrljoin "http://e.com/a" "javascript:void(0)" = "javascript:void(0)" := by decide

/-! ## Helper lemmas -/

theorem stringMk_ne_empty {l : List Char} (h : l ≠ []) : String.mk l ≠ "" := by
  intro he
  exact h (congrArg String.data he)

theorem pyStripL_cons_ne_nil {c : Char} {l : List Char} (h : isPyWs c = false) :
    pyStripL (c :: l) ≠ [] := by
  intro he
  unfold pyStripL at he
  rw [List.dropWhile_cons, h] at he
  simp only [Bool.false_eq_true, if_false] at he
  have h2 : List.dropWhile isPyWs (c :: l).reverse = [] := by
    cases hd : List.dropWhile isPyWs (c :: l).reverse with
    | nil => rfl
    | cons x xs => rw [hd] at he; simp at he
  rw [List.dropWhile_eq_nil_iff] at h2
  have := h2 c (by simp)
  rw [h] at this
  exact Bool.false_ne_true this

theorem pyStrip_failed_ne_empty (m : String) :
    pyStrip ("Failed to scrape: " ++ m) ≠ "" := by
  apply stringMk_ne_empty
  have hdata : ("Failed to scrape: " ++ m).data = 'F' :: ("ailed to scrape: ".data ++ m.data) := by
    rw [String.data_append]
    rfl
  rw [show pyStripL ("Failed to scrape: " ++ m).data =
      pyStripL ('F' :: ("ailed to scrape: ".data ++ m.data)) from by rw [hdata]]
  exact pyStripL_cons_ne_nil (by decide)

theorem validateResult_none_iff (sections : List Section) :
    validateResult sections = none ↔
      sections ≠ [] ∧ ∃ s ∈ sections, pyStrip s.content.text ≠ "" := by
  unfold validateResult
  by_cases h1 : sections.isEmpty
  · simp [h1, List.isEmpty_iff.mp h1]
  · have h1' : sections ≠ [] := fun he => h1 (by simp [he])
    simp only [h1, Bool.false_eq_true, if_false]
    by_cases h2 : (sections.any fun s => decide (pyStrip s.content.text ≠ "")) = true
    · rw [if_pos h2]
      rcases List.any_eq_true.mp h2 with ⟨s, hs, hp⟩
      simp only [true_iff, eq_self_iff_true]
      exact ⟨h1', s, hs, of_decide_eq_true hp⟩
    · rw [if_neg h2]
      constructor
      · intro hc; cases hc
      · rintro ⟨_, s, hs, hp⟩
        exact absurd (List.any_eq_true.mpr ⟨s, hs, decide_eq_true hp⟩) h2

theorem createErrorResponse_wellFormed (url errorMsg now : String) (i : Interactions)
    (errs : List ErrorEntry) : docWellFormed (createErrorResponse url errorMsg now i errs) := by
  refine ⟨by simp [createErrorResponse], ?_⟩
  refine ⟨errorSection url errorMsg, by simp [createErrorResponse], ?_⟩
  exact pyStrip_failed_ne_empty errorMsg

theorem finalizeResult_wellFormed (env : ScrapeEnv) (url : String) (pages : List String)
    (strategy : String) (i : Interactions) (errs : List ErrorEntry) :
    docWellFormed (finalizeResult env url pages strategy i errs) := by
  unfold finalizeResult
  cases hp : parseAndMergePages env.selectolax pages url with
  | error msg => exact createErrorResponse_wellFormed ..
  | ok result =>
    simp only
    cases hv : validateResult result.sections with
    | none =>
      rcases (validateResult_none_iff result.sections).mp hv with ⟨h1, h2⟩
      exact ⟨h1, h2⟩
    | some msg => exact createErrorResponse_wellFormed ..

theorem ite_isEmpty_ne_nil (l : List Section) (b : String) :
    (if l.isEmpty then [placeholderSection b] else l) ≠ [] := by
  by_cases h : l.isEmpty
  · simp [h]
  · simp only [h, Bool.false_eq_true, if_false]
    exact fun he => h (by simp [he])

theorem extractSections_ne_nil (t : DomTree) (base : String) :
    extractSections t base ≠ [] := by
  unfold extractSections
  exact ite_isEmpty_ne_nil _ _

/-- C1 — For every input URL the document `scrape` returns (the error
document included) has a non-empty `sections` list with at least one
section whose `content.text` is non-empty after stripping; and for all
input markup the extractor returns a non-empty section list (the
placeholder fallback). -/
theorem scrape_sections_wellFormed :
    (∀ (env : ScrapeEnv) (url : String), docWellFormed (scrape env url)) ∧
      (∀ (t : DomTree) (base : String), extractSections t base ≠ []) := by
  constructor
  · intro env url
    unfold scrape
    cases hf : env.fetchResult with
    | error staticError =>
      dsimp only
      cases hj : env.jsResult with
      | ok jsOut => exact finalizeResult_wellFormed ..
      | error jsError => exact createErrorResponse_wellFormed ..
    | ok html =>
      dsimp only
      by_cases hjs : html ≠ "" ∧ needsJsRendering html url = true
      · rw [if_pos hjs]
        cases hj : env.jsResult with
        | ok jsOut => exact finalizeResult_wellFormed ..
        | error jsError => exact finalizeResult_wellFormed ..
      · rw [if_neg hjs]
        by_cases hpag : detectStaticPagination (env.selectolax html) url = true
        · rw [if_pos hpag]
          exact finalizeResult_wellFormed ..
        · rw [if_neg hpag]
          exact finalizeResult_wellFormed ..
  · exact extractSections_ne_nil

/-! ## C2: which path wins when both classifier flags are true -/

theorem finalizeResult_strategy (env : ScrapeEnv) (url : String) (pages : List String)
    (strategy : String) (i : Interactions) (errs : List ErrorEntry) :
    (finalizeResult env url pages strategy i errs).meta.strategy = strategy ∨
      (finalizeResult env url pages strategy i errs).meta.strategy = "error" := by
  unfold finalizeResult
  cases parseAndMergePages env.selectolax pages url with
  | error msg => exact Or.inr rfl
  | ok result =>
    dsimp only
    cases validateResult result.sections with
    | none => exact Or.inl rfl
    | some msg => exact Or.inr rfl

/-- C2 — counterexample: a URL for which the static fetch succeeds, the
markup needs rendering and static pagination is detected, yet `scrape`
takes the rendered-browser path (strategy `"js"`), not the
static-pagination path.  The claimed precedence of static pagination over
rendering fails at this input. -/
theorem c2_rendering_beats_pagination_counterexample :
    needsJsRendering "x" bothFlagsUrl = true ∧
      detectStaticPagination (envJsOk.selectolax "x") bothFlagsUrl = true ∧
      (scrape envJsOk bothFlagsUrl).meta.strategy = "js" ∧
      (scrape envJsOk bothFlagsUrl).meta.strategy ≠ "static-paginated" := by decide

/-- C2 amended — when the initial static fetch succeeds with non-empty
markup that needs rendering, `scrape` takes the rendered-browser path
regardless of static pagination: the final strategy is `"js"`,
`"static-fallback"` or `"error"`, never `"static-paginated"` (pagination
is only consulted when rendering is not needed). -/
theorem scrape_rendering_takes_precedence (env : ScrapeEnv) (url html : String)
    (hf : env.fetchResult = .ok html) (hne : html ≠ "")
    (hjs : needsJsRendering html url = true) :
    ((scrape env url).meta.strategy = "js" ∨
        (scrape env url).meta.strategy = "static-fallback" ∨
        (scrape env url).meta.strategy = "error") ∧
      (scrape env url).meta.strategy ≠ "static-paginated" := by
  have hmain : (scrape env url).meta.strategy = "js" ∨
      (scrape env url).meta.strategy = "static-fallback" ∨
      (scrape env url).meta.strategy = "error" := by
    unfold scrape
    rw [hf]
    dsimp only
    rw [if_pos ⟨hne, hjs⟩]
    cases hj : env.jsResult with
    | ok jsOut =>
      rcases finalizeResult_strategy env url jsOut.1 "js" jsOut.2 [] with h | h
      · exact Or.inl h
      · exact Or.inr (Or.inr h)
    | error jsError =>
      rcases finalizeResult_strategy env url [html] "static-fallback"
          { clicks := [], scrolls := 0, pages := [url] }
          [{ message := "JS rendering failed: " ++ jsError, phase := "js-fallback",
             etype := none }] with h | h
      · exact Or.inr (Or.inl h)
      · exact Or.inr (Or.inr h)
  refine ⟨hmain, ?_⟩
  rcases hmain with h | h | h <;> rw [h] <;> decide

theorem scrape_rendering_takes_precedence_witness :
    ((scrape envJsOk bothFlagsUrl).meta.strategy = "js" ∨
        (scrape envJsOk bothFlagsUrl).meta.strategy = "static-fallback" ∨
        (scrape envJsOk bothFlagsUrl).meta.strategy = "error") ∧
      (scrape envJsOk bothFlagsUrl).meta.strategy ≠ "static-paginated" :=
  scrape_rendering_takes_precedence envJsOk bothFlagsUrl "x" rfl (by decide) (by decide)

/-! ## C7: both acquisition paths fail -/

/-- C7 amended — when the static fetch and the Playwright run both fail,
`scrape` returns (never raises) the error document: strategy `"error"`,
errors list exactly the categorized static-fetch failure (phase
`"static-fetch"`) followed by the generic `"All scraping methods failed"`
entry (phase `"complete-failure"`); the error section's text carries the
static failure's message.  The rendering failure's own message is not
recorded. -/
theorem scrape_total_failure_error_document (env : ScrapeEnv) (url : String) (e : PyErr)
    (j : String) (hf : env.fetchResult = .error e) (hj : env.jsResult = .error j) :
    scrape env url = createErrorResponse url e.msg env.now
        { clicks := [], scrolls := 0, pages := [url] }
        [staticFetchErrorEntry e,
         { message := "All scraping methods failed", phase := "complete-failure",
           etype := none }] ∧
      (scrape env url).meta.strategy = "error" ∧
      (scrape env url).errors.map ErrorEntry.phase = ["static-fetch", "complete-failure"] := by
  have h : scrape env url = createErrorResponse url e.msg env.now
      { clicks := [], scrolls := 0, pages := [url] }
      [staticFetchErrorEntry e,
       { message := "All scraping methods failed", phase := "complete-failure",
         etype := none }] := by
    unfold scrape
    rw [hf]
    dsimp only
    rw [hj]
    rfl
  exact ⟨h, by rw [h]; rfl, by rw [h]; rfl⟩

theorem scrape_total_failure_error_document_witness :
    scrape envBothFail "https://e.com/a" =
        createErrorResponse "https://e.com/a"
          "Access forbidden (403). Site may be blocking automated requests."
          envBothFail.now
          { clicks := [], scrolls := 0, pages := ["https://e.com/a"] }
          [staticFetchErrorEntry
            { msg := "Access forbidden (403). Site may be blocking automated requests.",
              etype := "Exception" },
           { message := "All scraping methods failed", phase := "complete-failure",
             etype := none }] ∧
      (scrape envBothFail "https://e.com/a").meta.strategy = "error" ∧
      (scrape envBothFail "https://e.com/a").errors.map ErrorEntry.phase =
        ["static-fetch", "complete-failure"] :=
  scrape_total_failure_error_document envBothFail "https://e.com/a"
    { msg := "Access forbidden (403). Site may be blocking automated requests.",
      etype := "Exception" } "PLAYWRIGHT-BOOM" rfl rfl

/-- C7 — counterexample: at a concrete total-failure input, no entry of
the returned errors list carries the rendering failure's message
("PLAYWRIGHT-BOOM"), so the claim that `errors` contains both failure
messages fails; only the static-fetch failure and the generic
complete-failure entry are recorded. -/
theorem c7_rendering_message_missing_counterexample :
    (∀ e ∈ (scrape envBothFail "https://e.com/a").errors,
        strIn "PLAYWRIGHT-BOOM" e.message = false) ∧
      (scrape envBothFail "https://e.com/a").meta.strategy = "error" ∧
      (scrape envBothFail "https://e.com/a").errors.length = 2 := by decide

/-! ## C8: the static paginator -/

theorem paginateLoop_spec (selectolax : String → DomTree)
    (fetch : String → Except String String) :
    ∀ (fuel : Nat) (st : PagState), st.htmlPages ≠ [] →
      (paginateLoop selectolax fetch fuel st).htmlPages.head? = st.htmlPages.head? ∧
      st.htmlPages.length ≤ (paginateLoop selectolax fetch fuel st).htmlPages.length ∧
      (paginateLoop selectolax fetch fuel st).htmlPages.length ≤ st.htmlPages.length + fuel ∧
      (paginateLoop selectolax fetch fuel st).pages.length =
        st.pages.length +
          ((paginateLoop selectolax fetch fuel st).htmlPages.length - st.htmlPages.length) ∧
      ((paginateLoop selectolax fetch fuel st).htmlPages.length = st.htmlPages.length + fuel ∨
        pagTerminal selectolax fetch (paginateLoop selectolax fetch fuel st)) := by
  intro fuel
  induction fuel with
  | zero =>
    intro st _
    have heq : paginateLoop selectolax fetch 0 st = st := by unfold paginateLoop; rfl
    rw [heq]
    exact ⟨rfl, Nat.le_refl _, by omega, by omega, Or.inl (by omega)⟩
  | succ fuel ih =>
    intro st hne
    cases hnext : findNextHref (selectolax (st.htmlPages.getLastD "")) with
    | none =>
      have heq : paginateLoop selectolax fetch (fuel + 1) st = st := by
        unfold paginateLoop
        rw [hnext]
      rw [heq]
      refine ⟨rfl, Nat.le_refl _, by omega, by omega, Or.inr ?_⟩
      unfold pagTerminal
      rw [hnext]
      trivial
    | some nextHref =>
      by_cases hvis : st.pages.contains (pyUrljoin st.currentUrl nextHref) = true
      · have heq : paginateLoop selectolax fetch (fuel + 1) st = st := by
          unfold paginateLoop
          rw [hnext]
          dsimp only
          rw [if_pos hvis]
        rw [heq]
        refine ⟨rfl, Nat.le_refl _, by omega, by omega, Or.inr ?_⟩
        unfold pagTerminal
        rw [hnext]
        exact Or.inl hvis
      · cases hfetch : fetch (pyUrljoin st.currentUrl nextHref) with
        | error msg =>
          have heq : paginateLoop selectolax fetch (fuel + 1) st = st := by
            unfold paginateLoop
            rw [hnext]
            dsimp only
            rw [if_neg hvis, hfetch]
          rw [heq]
          refine ⟨rfl, Nat.le_refl _, by omega, by omega, Or.inr ?_⟩
          unfold pagTerminal
          rw [hnext]
          exact Or.inr ⟨msg, hfetch⟩
        | ok pageHtml =>
          have heq : paginateLoop selectolax fetch (fuel + 1) st =
              paginateLoop selectolax fetch fuel
                { htmlPages := st.htmlPages ++ [pageHtml],
                  pages := st.pages ++ [pyUrljoin st.currentUrl nextHref],
                  currentUrl := pyUrljoin st.currentUrl nextHref } := by
            conv_lhs => unfold paginateLoop
            rw [hnext]
            dsimp only
            rw [if_neg hvis, hfetch]
          rw [heq]
          obtain ⟨h1, h2, h3, h4, h5⟩ := ih
            { htmlPages := st.htmlPages ++ [pageHtml],
              pages := st.pages ++ [pyUrljoin st.currentUrl nextHref],
              currentUrl := pyUrljoin st.currentUrl nextHref } (by simp)
          dsimp only at h1 h2 h3 h4 h5
          rw [List.length_append] at h2 h3 h4 h5
          rw [List.length_append] at h4
          simp only [List.length_cons, List.length_nil] at h2 h3 h4 h5
          obtain ⟨a, rest, hcons⟩ := List.exists_cons_of_ne_nil hne
          have hhead : (st.htmlPages ++ [pageHtml]).head? = st.htmlPages.head? := by
            rw [hcons]
            simp
          refine ⟨by rw [h1, hhead], by omega, by omega, by omega, ?_⟩
          rcases h5 with h5 | h5
          · exact Or.inl (by omega)
          · exact Or.inr h5

/-- C8 amended — the static paginator returns an ordered snapshot list
that begins with the first page's markup and has between 1 and
`max maxPages 1` entries (so at most `maxPages` whenever `maxPages ≥ 1`);
one visited URL is appended per extra page; and when the page cap was not
exhausted the loop stopped for one of the three break conditions: no
surviving "next" candidate, an already-visited candidate, or a failing
fetch (a single fetch failure ends the loop but the pages collected so
far are still returned, never an exception). -/
theorem staticPaginate_spec (selectolax : String → DomTree)
    (fetch : String → Except String String) (maxPages : Nat)
    (baseUrl firstHtml : String) (visited : List String) :
    (staticPaginate selectolax fetch maxPages baseUrl firstHtml visited).htmlPages.head? =
        some firstHtml ∧
      1 ≤ (staticPaginate selectolax fetch maxPages baseUrl firstHtml visited).htmlPages.length ∧
      (staticPaginate selectolax fetch maxPages baseUrl firstHtml visited).htmlPages.length ≤
        max maxPages 1 ∧
      (staticPaginate selectolax fetch maxPages baseUrl firstHtml visited).pages.length =
        visited.length +
          ((staticPaginate selectolax fetch maxPages baseUrl firstHtml visited).htmlPages.length
            - 1) ∧
      ((staticPaginate selectolax fetch maxPages baseUrl firstHtml visited).htmlPages.length =
          max maxPages 1 ∨
        pagTerminal selectolax fetch
          (staticPaginate selectolax fetch maxPages baseUrl firstHtml visited)) := by
  have h := paginateLoop_spec selectolax fetch (maxPages - 1)
    { htmlPages := [firstHtml], pages := visited, currentUrl := baseUrl } (by simp)
  rcases h with ⟨h1, h2, h3, h4, h5⟩
  unfold staticPaginate
  simp only [List.length_cons, List.length_nil] at h2 h3 h4 h5
  refine ⟨h1, by omega, by omega, by omega, ?_⟩
  rcases h5 with h5 | h5
  · exact Or.inl (by omega)
  · exact Or.inr h5

/-- C8 — counterexample: with `maxPages = 0` the paginator still returns
the one snapshot it was seeded with, so "at most maxPages snapshots"
fails at this input (the correct bound is `max maxPages 1`). -/
theorem c8_zero_maxpages_counterexample :
    (staticPaginate (fun _ => emptyTree) (fun _ => .error "x") 0 "u" "h" ["u"]).htmlPages.length
        = 1 ∧
      ¬ ((staticPaginate (fun _ => emptyTree) (fun _ => .error "x") 0 "u" "h"
          ["u"]).htmlPages.length ≤ 0) := by decide

/-- The spec's pagination scenario: a first page whose markup has an
`a.next` link to `/page/2` and a second page with no further link yields
exactly two snapshots under `maxPages = 3`. -/
example :
    (staticPaginate twoPageSite twoPageFetch 3 "http://q.com/" "P1"
        ["http://q.com/"]).htmlPages = ["P1", "P2"] ∧
      (staticPaginate twoPageSite twoPageFetch 3 "http://q.com/" "P1"
        ["http://q.com/"]).pages = ["http://q.com/", "http://q.com/page/2"] := by decide

/-! ## C9: the infinite-scroll stop rule -/

theorem scrollLoop_le (env : ScrollEnv) :
    ∀ (fuel r s nc ic : Nat), scrollLoop env fuel r s nc ic ≤ s + fuel := by
  intro fuel
  induction fuel with
  | zero => intro r s nc ic; exact Nat.le_refl _
  | succ fuel ih =>
    intro r s nc ic
    unfold scrollLoop
    by_cases hc : env.height (2 * r + 1) = env.height (2 * r) ∧ env.count (r + 1) = ic
    · rw [if_pos hc]
      by_cases hnc : nc + 1 ≥ 2
      · rw [if_pos hnc]; omega
      · rw [if_neg hnc]
        have := ih (r + 1) (s + 1) (nc + 1) ic
        omega
    · rw [if_neg hc]
      have := ih (r + 1) (s + 1) 0 (env.count (r + 1))
      omega

/-- C9 amended — the scroll loop performs at most `maxScrolls` rounds, and
it stops as soon as two consecutive rounds leave both the scroll height
and the tracked element count *exactly unchanged* (equality, not mere
non-increase: a decrease in height resets the stagnation counter).  With
measurements constant throughout, exactly `min 2 maxScrolls` scrolls are
performed, recorded in the `scrolls` counter including the two no-op
rounds that triggered the stop. -/
theorem scrapeScrolls_spec (env : ScrollEnv) (maxScrolls h c : Nat) :
    scrapeScrolls env maxScrolls ≤ maxScrolls ∧
      scrapeScrolls (constScrollEnv h c) maxScrolls = min 2 maxScrolls := by
  constructor
  · have := scrollLoop_le env maxScrolls 0 0 0 (env.count 0)
    simpa [scrapeScrolls] using this
  · match maxScrolls with
    | 0 => rfl
    | 1 => simp [scrapeScrolls, scrollLoop, constScrollEnv]
    | n + 2 =>
      have hmin : min 2 (n + 2) = 2 := by omega
      rw [hmin]
      simp [scrapeScrolls, scrollLoop, constScrollEnv]

/-- C9 — counterexample: the height strictly shrinks at every reading
while the count stays fixed, so the first two rounds show no *increase*
in either measurement; the claimed stop rule would halt after 2 scrolls,
but the code performs all 5, because its stagnation test is equality of
measurements, not absence of increase. -/
theorem c9_shrinking_height_counterexample :
    scrapeScrolls shrinkingScrollEnv 5 = 5 ∧
      shrinkingScrollEnv.height 1 ≤ shrinkingScrollEnv.height 0 ∧
      shrinkingScrollEnv.height 3 ≤ shrinkingScrollEnv.height 2 ∧
      shrinkingScrollEnv.count 1 ≤ shrinkingScrollEnv.count 0 ∧
      shrinkingScrollEnv.count 2 ≤ shrinkingScrollEnv.count 1 ∧
      (5 : Nat) ≠ 2 := by decide

/-! ## C5: identity-tracked deduplication across strategies 1 and 2 -/

theorem extEvolve_refl (st : ExtState) : extEvolve st st :=
  ⟨fun _ h => h, [], by simp, List.nodup_nil, by simp⟩

theorem extEvolve_trans {st1 st2 st3 : ExtState} (h12 : extEvolve st1 st2)
    (h23 : extEvolve st2 st3) : extEvolve st1 st3 := by
  obtain ⟨hsub12, s12, hf12, hn12, hp12⟩ := h12
  obtain ⟨hsub23, s23, hf23, hn23, hp23⟩ := h23
  refine ⟨fun n hn => hsub23 n (hsub12 n hn), s12 ++ s23, ?_, ?_, ?_⟩
  · rw [hf23, hf12, List.append_assoc]
  · rw [List.map_append]
    rw [List.nodup_append]
    refine ⟨hn12, hn23, ?_⟩
    intro n hn1 hn2
    rcases List.mem_map.mp hn1 with ⟨q1, hq1, he1⟩
    rcases List.mem_map.mp hn2 with ⟨q2, hq2, he2⟩
    exact (hp23 q2 hq2).1 (he2 ▸ he1 ▸ (hp12 q1 hq1).2)
  · intro q hq
    rcases List.mem_append.mp hq with hq | hq
    · exact ⟨(hp12 q hq).1, hsub23 _ (hp12 q hq).2⟩
    · exact ⟨fun hc => (hp23 q hq).1 (hsub12 _ hc), (hp23 q hq).2⟩

theorem landmarkStep_evolve (base ty : String) (st : ExtState) (e : Element) :
    extEvolve st (landmarkStep base ty st e) := by
  unfold landmarkStep
  by_cases hc : st.processed.contains e.nodeId = true
  · rw [if_pos hc]; exact extEvolve_refl st
  · rw [if_neg hc]
    have hnot : e.nodeId ∉ st.processed := by
      intro hmem
      exact hc (by simpa using hmem)
    by_cases ht : pyStrip (parseSection e base st.sid ty).content.text ≠ ""
    · rw [if_pos ht]
      exact ⟨fun n hn => by simp [hn], [(e.nodeId, parseSection e base st.sid ty)],
        rfl, by simp, by simp [hnot]⟩
    · rw [if_neg ht]
      exact ⟨fun n hn => by simp [hn], [], by simp, List.nodup_nil, by simp⟩

theorem contentBlockStep_evolve (base : String) (st : ExtState) (e : Element) :
    extEvolve st (contentBlockStep base st e) := by
  unfold contentBlockStep
  by_cases hc : st.processed.contains e.nodeId = true
  · rw [if_pos hc]; exact extEvolve_refl st
  · rw [if_neg hc]
    have hnot : e.nodeId ∉ st.processed := by
      intro hmem
      exact hc (by simpa using hmem)
    by_cases hlen : e.textStrip.length > 50
    · rw [if_pos hlen]
      by_cases ht : pyStrip (parseSection e base st.sid "section").content.text ≠ ""
      · rw [if_pos ht]
        exact ⟨fun n hn => by simp [hn], [(e.nodeId, parseSection e base st.sid "section")],
          rfl, by simp, by simp [hnot]⟩
      · rw [if_neg ht]
        exact ⟨fun n hn => by simp [hn], [], by simp, List.nodup_nil, by simp⟩
    · rw [if_neg hlen]
      exact extEvolve_refl st

theorem foldl_evolve {α : Type} (step : ExtState → α → ExtState)
    (hstep : ∀ st a, extEvolve st (step st a)) :
    ∀ (l : List α) (st : ExtState), extEvolve st (l.foldl step st) := by
  intro l
  induction l with
  | nil => intro st; exact extEvolve_refl st
  | cons a rest ih =>
    intro st
    exact extEvolve_trans (hstep st a) (ih (step st a))

theorem landmarkPhase_evolve (t : DomTree) (base : String) :
    extEvolve { found := [], processed := [], sid := 0 } (landmarkPhase t base) := by
  unfold landmarkPhase
  apply foldl_evolve
  intro st p
  exact foldl_evolve _ (landmarkStep_evolve base p.2) (t.css p.1) st

theorem contentBlockPhase_evolve (t : DomTree) (base : String) (st : ExtState) :
    extEvolve st (contentBlockPhase t base st) := by
  unfold contentBlockPhase
  apply foldl_evolve
  intro st' sel
  exact foldl_evolve _ (contentBlockStep_evolve base) (t.css sel) st'

/-- C5 — across the landmark strategy and the content-block strategy, no
DOM node (tracked by identity) is emitted as a section more than once: the
node identities behind the found sections after both strategies are
pairwise distinct; every section the content-block strategy adds comes
from a node that was not in the landmark strategy's already-processed set;
and every section the landmark strategy emitted has its node in that set
(so the content-block strategy skips it). -/
theorem strategies_no_duplicate_emission (t : DomTree) (base : String) :
    ((contentBlockPhase t base (landmarkPhase t base)).found.map Prod.fst).Nodup ∧
      (∀ q ∈ (contentBlockPhase t base (landmarkPhase t base)).found,
        q ∈ (landmarkPhase t base).found ∨ q.1 ∉ (landmarkPhase t base).processed) ∧
      (∀ q ∈ (landmarkPhase t base).found, q.1 ∈ (landmarkPhase t base).processed) := by
  have h1 := landmarkPhase_evolve t base
  have h2 := contentBlockPhase_evolve t base (landmarkPhase t base)
  have h12 := extEvolve_trans h1 h2
  obtain ⟨_, suffix, hf, hn, hp⟩ := h12
  obtain ⟨_, suffix2, hf2, _, hp2⟩ := h2
  obtain ⟨_, suffix1, hf1, _, hp1⟩ := h1
  refine ⟨?_, ?_, ?_⟩
  · rw [hf]
    simpa using hn
  · intro q hq
    rw [hf2] at hq
    rcases List.mem_append.mp hq with hq | hq
    · exact Or.inl hq
    · exact Or.inr (hp2 q hq).1
  · intro q hq
    rw [hf1] at hq
    simp only [List.nil_append] at hq
    exact (hp1 q hq).2

/-! ## C6: link extraction -/

theorem extractLinksStep_cases (base : String) (st : List Link × List String) (a : Anchor) :
    extractLinksStep base st a = st ∨
      ((a.href.getD "") ≠ "" ∧ pyStartsWith "#" (a.href.getD "") = false ∧
        pyStartsWith "javascript:" (a.href.getD "") = false ∧
        ∃ L : Link, L.href = pyUrljoin base (a.href.getD "") ∧ L.href ∉ st.2 ∧
          extractLinksStep base st a = (st.1 ++ [L], st.2 ++ [L.href])) := by
  unfold extractLinksStep
  by_cases h1 : (a.href.getD "" = "" || pyStartsWith "#" (a.href.getD "")
      || pyStartsWith "javascript:" (a.href.getD "")) = true
  · rw [if_pos h1]
    exact Or.inl rfl
  · rw [if_neg h1]
    simp only [Bool.or_eq_true, decide_eq_true_eq, not_or, Bool.not_eq_true] at h1
    obtain ⟨⟨hne, hfrag⟩, hjs⟩ := h1
    by_cases h2 : st.2.contains (pyUrljoin base (a.href.getD "")) = true
    · rw [if_pos h2]
      exact Or.inl rfl
    · rw [if_neg h2]
      refine Or.inr ⟨hne, hfrag, hjs,
        ⟨{ text := if pyStrip a.text = "" then "(no text)" else pyStrip a.text,
           href := pyUrljoin base (a.href.getD "") }, rfl, ?_, rfl⟩⟩
      intro hmem
      exact h2 (by simpa using hmem)

theorem extractLinks_fold_spec (base : String) :
    ∀ (anchors : List Anchor) (st : List Link × List String),
      (st.1.map Link.href).Nodup → (∀ l ∈ st.1, l.href ∈ st.2) →
      ((anchors.foldl (extractLinksStep base) st).1.map Link.href).Nodup ∧
        (∀ l ∈ (anchors.foldl (extractLinksStep base) st).1,
          l.href ∈ (anchors.foldl (extractLinksStep base) st).2) ∧
        ∀ l ∈ (anchors.foldl (extractLinksStep base) st).1,
          l ∈ st.1 ∨ ∃ a ∈ anchors, (a.href.getD "") ≠ "" ∧
            pyStartsWith "#" (a.href.getD "") = false ∧
            pyStartsWith "javascript:" (a.href.getD "") = false ∧
            l.href = pyUrljoin base (a.href.getD "") := by
  intro anchors
  induction anchors with
  | nil =>
    intro st h1 h2
    exact ⟨h1, h2, fun l hl => Or.inl hl⟩
  | cons a rest ih =>
    intro st h1 h2
    simp only [List.foldl_cons]
    rcases extractLinksStep_cases base st a with heq | ⟨hne, hfrag, hjs, L, hLhref, hLnew, heq⟩
    · rw [heq]
      obtain ⟨g1, g2, g3⟩ := ih st h1 h2
      refine ⟨g1, g2, fun l hl => ?_⟩
      rcases g3 l hl with h | ⟨a2, ha2, rest2⟩
      · exact Or.inl h
      · exact Or.inr ⟨a2, List.mem_cons_of_mem _ ha2, rest2⟩
    · rw [heq]
      have hnodup : ((st.1 ++ [L]).map Link.href).Nodup := by
        rw [List.map_append, List.nodup_append]
        refine ⟨h1, by simp, ?_⟩
        intro x hx hx2
        simp only [List.map_cons, List.map_nil, List.mem_cons, List.not_mem_nil,
          or_false] at hx2
        rcases List.mem_map.mp hx with ⟨l, hl, hlh⟩
        exact hLnew (hx2 ▸ hlh ▸ h2 l hl)
      have hclosed : ∀ l ∈ st.1 ++ [L], l.href ∈ st.2 ++ [L.href] := by
        intro l hl
        rcases List.mem_append.mp hl with hl | hl
        · exact List.mem_append.mpr (Or.inl (h2 l hl))
        · simp only [List.mem_singleton] at hl
          rw [hl]
          simp
      obtain ⟨g1, g2, g3⟩ := ih (st.1 ++ [L], st.2 ++ [L.href]) hnodup hclosed
      refine ⟨g1, g2, fun l hl => ?_⟩
      rcases g3 l hl with h | ⟨a2, ha2, rest2⟩
      · rcases List.mem_append.mp h with h | h
        · exact Or.inl h
        · simp only [List.mem_singleton] at h
          exact Or.inr ⟨a, List.mem_cons_self _ _, hne, hfrag, hjs, by rw [h, hLhref]⟩
      · exact Or.inr ⟨a2, List.mem_cons_of_mem _ ha2, rest2⟩

/-- C6 amended — every entry of a section's `links` is the
urljoin-resolution, against the page URL, of a source anchor href that is
non-empty and starts with neither `#` nor `javascript:` (so fragment-only
and `javascript:` links never contribute an entry); resolved hrefs are
pairwise distinct within the section; and at most 50 links are kept.  The
resolved href need not have scheme http/https: an absolute non-http href
such as `mailto:` passes through `urljoin` unchanged. -/
theorem extractLinks_spec (e : Element) (base : String) :
    (extractLinks e base).length ≤ 50 ∧
      ((extractLinks e base).map Link.href).Nodup ∧
      ∀ l ∈ extractLinks e base, ∃ a ∈ e.anchors, (a.href.getD "") ≠ "" ∧
        pyStartsWith "#" (a.href.getD "") = false ∧
        pyStartsWith "javascript:" (a.href.getD "") = false ∧
        l.href = pyUrljoin base (a.href.getD "") := by
  obtain ⟨g1, _, g3⟩ := extractLinks_fold_spec base e.anchors ([], [])
    (by simp) (by simp)
  refine ⟨?_, ?_, ?_⟩
  · unfold extractLinks
    rw [List.length_take]
    omega
  · unfold extractLinks
    have hsub : List.Sublist
        (((e.anchors.foldl (extractLinksStep base) ([], [])).1.take 50).map Link.href)
        (((e.anchors.foldl (extractLinksStep base) ([], [])).1).map Link.href) :=
      (List.take_sublist _ _).map Link.href
    exact g1.sublist hsub
  · intro l hl
    unfold extractLinks at hl
    have hl2 := (List.take_subset _ _) hl
    rcases g3 l hl2 with h | h
    · simp at h
    · exact h

/-- C6 — counterexample: an anchor `mailto:user@example.com` survives the
filter (it starts with neither `#` nor `javascript:`) and `urljoin`
returns it unchanged, so the extracted link's resolved href is an
absolute URL whose scheme is neither http nor https, refuting the claim
that every resolved href has scheme http/https. -/
theorem c6_mailto_scheme_counterexample :
    extractLinks mailtoElement "https://example.com/page" =
        [{ text := "Mail", href := "mailto:user@example.com" }] ∧
      urlScheme "mailto:user@example.com" = "mailto" ∧
      urlScheme "mailto:user@example.com" ≠ "http" ∧
      urlScheme "mailto:user@example.com" ≠ "https" := by decide

/-! ## `Nat.repr` produces dash-free decimal digits, injectively -/

theorem digitChar_inj_lt (a b : Nat) (ha : a < 10) (hb : b < 10)
    (h : Nat.digitChar a = Nat.digitChar b) : a = b := by
  have key : ∀ x y : Fin 10, Nat.digitChar x.val = Nat.digitChar y.val → x.val = y.val := by
    decide
  exact key ⟨a, ha⟩ ⟨b, hb⟩ h

theorem digitChar_ne_dash (a : Nat) (ha : a < 10) : Nat.digitChar a ≠ '-' := by
  have key : ∀ x : Fin 10, Nat.digitChar x.val ≠ '-' := by decide
  exact key ⟨a, ha⟩

theorem decRepr_lt10 {n : Nat} (h : n < 10) : decRepr n = [Nat.digitChar n] := by
  rw [decRepr, dif_pos h]

theorem decRepr_ge10 {n : Nat} (h : ¬ n < 10) :
    decRepr n = decRepr (n / 10) ++ [Nat.digitChar (n % 10)] := by
  rw [decRepr, dif_neg h]

theorem decRepr_ne_nil (n : Nat) : decRepr n ≠ [] := by
  by_cases h : n < 10
  · rw [decRepr_lt10 h]; simp
  · rw [decRepr_ge10 h]; simp

theorem decRepr_no_dash : ∀ n : Nat, '-' ∉ decRepr n := by
  intro n
  induction n using Nat.strong_induction_on with
  | _ n ih =>
    by_cases h : n < 10
    · rw [decRepr_lt10 h]
      intro hmem
      simp only [List.mem_singleton] at hmem
      exact digitChar_ne_dash n h hmem.symm
    · rw [decRepr_ge10 h]
      intro hmem
      rcases List.mem_append.mp hmem with hm | hm
      · exact ih (n / 10) (Nat.div_lt_self (by omega) (by omega)) hm
      · simp only [List.mem_singleton] at hm
        exact digitChar_ne_dash (n % 10) (Nat.mod_lt n (by omega)) hm.symm

theorem decRepr_inj : ∀ m n : Nat, decRepr m = decRepr n → m = n := by
  intro m
  induction m using Nat.strong_induction_on with
  | _ m ih =>
    intro n h
    by_cases hm : m < 10 <;> by_cases hn : n < 10
    · rw [decRepr_lt10 hm, decRepr_lt10 hn] at h
      simp only [List.cons.injEq, and_true] at h
      exact digitChar_inj_lt m n hm hn h
    · rw [decRepr_lt10 hm, decRepr_ge10 hn] at h
      have hlen := congrArg List.length h
      simp only [List.length_singleton, List.length_append, List.length_cons,
        List.length_nil] at hlen
      exact absurd (List.length_eq_zero.mp (by omega)) (decRepr_ne_nil (n / 10))
    · rw [decRepr_ge10 hm, decRepr_lt10 hn] at h
      have hlen := congrArg List.length h
      simp only [List.length_singleton, List.length_append, List.length_cons,
        List.length_nil] at hlen
      exact absurd (List.length_eq_zero.mp (by omega)) (decRepr_ne_nil (m / 10))
    · rw [decRepr_ge10 hm, decRepr_ge10 hn] at h
      obtain ⟨h1, h2⟩ := List.append_inj' h (by simp)
      have hdiv := ih (m / 10) (Nat.div_lt_self (by omega) (by omega)) (n / 10) h1
      simp only [List.cons.injEq, and_true] at h2
      have hmod := digitChar_inj_lt (m % 10) (n % 10) (Nat.mod_lt m (by omega))
        (Nat.mod_lt n (by omega)) h2
      omega

theorem toDigitsCore_eq_decRepr :
    ∀ (fuel n : Nat) (ds : List Char), n < 10 ^ fuel → 1 ≤ fuel →
      Nat.toDigitsCore 10 fuel n ds = decRepr n ++ ds := by
  intro fuel
  induction fuel with
  | zero => intro n ds _ hf; omega
  | succ fuel ih =>
    intro n ds hlt _
    show (if n / 10 = 0 then Nat.digitChar (n % 10) :: ds
      else Nat.toDigitsCore 10 fuel (n / 10) (Nat.digitChar (n % 10) :: ds)) = decRepr n ++ ds
    by_cases h10 : n < 10
    · rw [if_pos (Nat.div_eq_of_lt h10), decRepr_lt10 h10, Nat.mod_eq_of_lt h10]
      rfl
    · have hdiv : ¬ n / 10 = 0 := by
        intro hc
        have := Nat.div_add_mod n 10
        have := Nat.mod_lt n (show 0 < 10 by omega)
        omega
      rw [if_neg hdiv]
      have hfuel : 1 ≤ fuel := by
        by_contra hc
        have hf0 : fuel = 0 := by omega
        rw [hf0] at hlt
        simp at hlt
        omega
      have hbound : n / 10 < 10 ^ fuel := by
        rw [Nat.div_lt_iff_lt_mul (by omega : 0 < 10)]
        calc n < 10 ^ (fuel + 1) := hlt
        _ = 10 ^ fuel * 10 := by rw [Nat.pow_succ]
      rw [ih (n / 10) (Nat.digitChar (n % 10) :: ds) hbound hfuel]
      rw [decRepr_ge10 h10]
      simp

theorem repr_data_eq (n : Nat) : (Nat.repr n).data = decRepr n := by
  have hb : n < 10 ^ (n + 1) := by
    have h1 : n < 10 ^ n := Nat.lt_pow_self (by omega) n
    have h2 : 10 ^ n ≤ 10 ^ (n + 1) := Nat.pow_le_pow_right (by omega) (by omega)
    omega
  show (Nat.toDigits 10 n).asString.data = decRepr n
  rw [Nat.toDigits, toDigitsCore_eq_decRepr (n + 1) n [] hb (by omega)]
  simp [List.asString]

theorem nat_repr_inj {m n : Nat} (h : Nat.repr m = Nat.repr n) : m = n :=
  decRepr_inj m n (by rw [← repr_data_eq, ← repr_data_eq, h])

theorem repr_no_dash (n : Nat) : '-' ∉ (Nat.repr n).data := by
  rw [repr_data_eq]
  exact decRepr_no_dash n

/-! ## Dash counting and the last dash-separated component -/

theorem dashCount_append (a b : String) : dashCount (a ++ b) = dashCount a + dashCount b := by
  unfold dashCount
  rw [String.data_append, List.count_append]

theorem dashCount_repr (n : Nat) : dashCount (Nat.repr n) = 0 := by
  unfold dashCount
  rw [repr_data_eq]
  exact List.count_eq_zero.mpr (decRepr_no_dash n)

theorem renamePage_id (k : Nat) (s : Section) :
    (renamePage k s).id = s.id ++ "-page" ++ Nat.repr k := rfl

theorem renamePage_label (k : Nat) (s : Section) :
    (renamePage k s).label = s.label ++ " (Page " ++ Nat.repr k ++ ")" := rfl

theorem renamePage_content (k : Nat) (s : Section) :
    (renamePage k s).content = s.content := rfl

theorem renamePage_sourceUrl (k : Nat) (s : Section) :
    (renamePage k s).sourceUrl = s.sourceUrl := rfl

theorem dashCount_renamePage (k : Nat) (s : Section) :
    dashCount (renamePage k s).id = dashCount s.id + 1 := by
  rw [renamePage_id, dashCount_append, dashCount_append, dashCount_repr]
  have h : dashCount "-page" = 1 := by decide
  omega

theorem takeWhile_append_stop {p : Char → Bool} :
    ∀ (xs : List Char) (y : Char) (ys : List Char), (∀ x ∈ xs, p x = true) → p y = false →
      List.takeWhile p (xs ++ y :: ys) = xs := by
  intro xs
  induction xs with
  | nil =>
    intro y ys _ hy
    simp [List.takeWhile, hy]
  | cons x xs ih =>
    intro y ys hall hy
    rw [List.cons_append, List.takeWhile_cons, hall x (List.mem_cons_self ..)]
    simp [ih y ys (fun z hz => hall z (List.mem_cons_of_mem _ hz)) hy]

theorem afterLastDash_spec (a d : List Char) (hd : ∀ c ∈ d, c ≠ '-') :
    afterLastDash (a ++ '-' :: d) = d := by
  unfold afterLastDash
  rw [List.reverse_append, List.reverse_cons, List.append_assoc]
  have hstep : List.takeWhile (fun c => !(c = '-')) (d.reverse ++ ['-'] ++ a.reverse)
      = d.reverse := by
    rw [List.append_assoc]
    exact takeWhile_append_stop d.reverse '-' a.reverse
      (fun x hx => by simpa using hd x (List.mem_reverse.mp hx)) (by simp)
  rw [← List.append_assoc, hstep, List.reverse_reverse]

theorem appended_page_id_ne (id1 id2 : String) (j k : Nat) (hjk : j ≠ k) :
    id1 ++ "-page" ++ Nat.repr j ≠ id2 ++ "-page" ++ Nat.repr k := by
  intro h
  have hdata := congrArg String.data h
  rw [String.data_append, String.data_append, String.data_append, String.data_append] at hdata
  have hsplit1 : id1.data ++ "-page".data ++ (Nat.repr j).data =
      id1.data ++ '-' :: ("page".data ++ (Nat.repr j).data) := by
    show id1.data ++ "-page".data ++ (Nat.repr j).data =
      id1.data ++ ("-page".data ++ (Nat.repr j).data)
    rw [List.append_assoc]
  have hsplit2 : id2.data ++ "-page".data ++ (Nat.repr k).data =
      id2.data ++ '-' :: ("page".data ++ (Nat.repr k).data) := by
    show id2.data ++ "-page".data ++ (Nat.repr k).data =
      id2.data ++ ("-page".data ++ (Nat.repr k).data)
    rw [List.append_assoc]
  rw [hsplit1, hsplit2] at hdata
  have hdj : ∀ c ∈ "page".data ++ (Nat.repr j).data, c ≠ '-' := by
    intro c hc
    rcases List.mem_append.mp hc with hc | hc
    · intro he; rw [he] at hc; revert hc; decide
    · intro he; rw [he] at hc; exact repr_no_dash j hc
  have hdk : ∀ c ∈ "page".data ++ (Nat.repr k).data, c ≠ '-' := by
    intro c hc
    rcases List.mem_append.mp hc with hc | hc
    · intro he; rw [he] at hc; revert hc; decide
    · intro he; rw [he] at hc; exact repr_no_dash k hc
  have hald := congrArg afterLastDash hdata
  rw [afterLastDash_spec _ _ hdj, afterLastDash_spec _ _ hdk] at hald
  have hrepr := List.append_cancel_left hald
  exact hjk (nat_repr_inj (String.ext hrepr))

/-! ## Every parser-produced section has a one-dash id and the base URL -/

theorem parseSection_id (e : Element) (base : String) (sid : Nat) (ty : String) :
    (parseSection e base sid ty).id = determineSectionType e ty ++ "-" ++ Nat.repr sid := rfl

theorem parseSection_sourceUrl (e : Element) (base : String) (sid : Nat) (ty : String) :
    (parseSection e base sid ty).sourceUrl = base := rfl

theorem determineSectionType_dash (e : Element) (ty : String) (hty : dashCount ty = 0) :
    dashCount (determineSectionType e ty) = 0 := by
  unfold determineSectionType
  split
  · decide
  split
  · decide
  split
  · decide
  unfold_let
  split_ifs <;> first | decide | exact hty

theorem parseSection_shaped (e : Element) (base : String) (sid : Nat) (ty : String)
    (hty : dashCount ty = 0) : sectionShaped base (parseSection e base sid ty) := by
  constructor
  · rw [parseSection_id, dashCount_append, dashCount_append, dashCount_repr,
      determineSectionType_dash e ty hty]
    have h : dashCount "-" = 1 := by decide
    omega
  · exact parseSection_sourceUrl ..

theorem foldl_found_preserve {α : Type} (P : Section → Prop) :
    ∀ (l : List α) (step : ExtState → α → ExtState),
      (∀ st a, a ∈ l → (∀ q ∈ st.found, P q.2) → ∀ q ∈ (step st a).found, P q.2) →
      ∀ st, (∀ q ∈ st.found, P q.2) → ∀ q ∈ (l.foldl step st).found, P q.2 := by
  intro l
  induction l with
  | nil => intro step _ st hst; simpa using hst
  | cons a rest ih =>
    intro step h st hst
    exact ih step (fun st' a' ha' => h st' a' (List.mem_cons_of_mem _ ha')) (step st a)
      (h st a (List.mem_cons_self ..) hst)

theorem landmarkStep_found_shaped (base ty : String) (st : ExtState) (e : Element)
    (hty : dashCount ty = 0) (h : ∀ q ∈ st.found, sectionShaped base q.2) :
    ∀ q ∈ (landmarkStep base ty st e).found, sectionShaped base q.2 := by
  unfold landmarkStep
  by_cases h1 : st.processed.contains e.nodeId = true
  · rw [if_pos h1]; exact h
  · rw [if_neg h1]
    by_cases h2 : pyStrip (parseSection e base st.sid ty).content.text ≠ ""
    · rw [if_pos h2]
      intro q hq
      rcases List.mem_append.mp hq with hq | hq
      · exact h q hq
      · simp only [List.mem_singleton] at hq
        rw [hq]
        exact parseSection_shaped e base st.sid ty hty
    · rw [if_neg h2]; exact h

theorem contentBlockStep_found_shaped (base : String) (st : ExtState) (e : Element)
    (h : ∀ q ∈ st.found, sectionShaped base q.2) :
    ∀ q ∈ (contentBlockStep base st e).found, sectionShaped base q.2 := by
  unfold contentBlockStep
  by_cases h1 : st.processed.contains e.nodeId = true
  · rw [if_pos h1]; exact h
  · rw [if_neg h1]
    by_cases hlen : e.textStrip.length > 50
    · rw [if_pos hlen]
      by_cases h2 : pyStrip (parseSection e base st.sid "section").content.text ≠ ""
      · rw [if_pos h2]
        intro q hq
        rcases List.mem_append.mp hq with hq | hq
        · exact h q hq
        · simp only [List.mem_singleton] at hq
          rw [hq]
          exact parseSection_shaped e base st.sid "section" (by decide)
      · rw [if_neg h2]; exact h
    · rw [if_neg hlen]; exact h

theorem landmarkPhase_shaped (t : DomTree) (base : String) :
    ∀ q ∈ (landmarkPhase t base).found, sectionShaped base q.2 := by
  unfold landmarkPhase
  have hdash : ∀ p ∈ landmarks, dashCount p.2 = 0 := by decide
  apply foldl_found_preserve (sectionShaped base) landmarks
    (fun st p => (t.css p.1).foldl (landmarkStep base p.2) st)
  · intro st p hp hst
    exact foldl_found_preserve (sectionShaped base) (t.css p.1) (landmarkStep base p.2)
      (fun st' e _ hst' => landmarkStep_found_shaped base p.2 st' e (hdash p hp) hst') st hst
  · simp

theorem contentBlockPhase_shaped (t : DomTree) (base : String) (st : ExtState)
    (h : ∀ q ∈ st.found, sectionShaped base q.2) :
    ∀ q ∈ (contentBlockPhase t base st).found, sectionShaped base q.2 := by
  unfold contentBlockPhase
  apply foldl_found_preserve (sectionShaped base) contentSelectors
    (fun st' sel => (t.css sel).foldl (contentBlockStep base) st')
  · intro st' sel _ hst'
    exact foldl_found_preserve (sectionShaped base) (t.css sel) (contentBlockStep base)
      (fun st'' e _ hst'' => contentBlockStep_found_shaped base st'' e hst'') st' hst'
  · exact h

theorem extractByHeadings_shaped (t : DomTree) (base : String) (sid : Nat) :
    ∀ s ∈ extractByHeadings t base sid, sectionShaped base s := by
  intro s hs
  unfold extractByHeadings at hs
  rw [List.mem_filterMap] at hs
  obtain ⟨p, _, hp⟩ := hs
  by_cases hc : (parseSection p.2 base (sid + p.1) "section").content.text ≠ ""
  · rw [if_pos hc] at hp
    cases hp
    exact parseSection_shaped p.2 base (sid + p.1) "section" (by decide)
  · rw [if_neg hc] at hp
    cases hp

theorem mem_ite_prop {α : Type} (P : α → Prop) (c : Prop) [Decidable c] (l1 l2 : List α)
    (h1 : ∀ s ∈ l1, P s) (h2 : ∀ s ∈ l2, P s) : ∀ s ∈ (if c then l1 else l2), P s := by
  split
  · exact h1
  · exact h2

theorem extractSections_shaped (t : DomTree) (base : String) :
    ∀ s ∈ extractSections t base, sectionShaped base s := by
  have h1 := landmarkPhase_shaped t base
  have h2 : ∀ q ∈ (if (landmarkPhase t base).found.length < 5 then
        contentBlockPhase t base (landmarkPhase t base)
      else landmarkPhase t base).found, sectionShaped base q.2 := by
    split
    · exact contentBlockPhase_shaped t base (landmarkPhase t base) h1
    · exact h1
  have hA : ∀ s ∈ (if (landmarkPhase t base).found.length < 5 then
        contentBlockPhase t base (landmarkPhase t base)
      else landmarkPhase t base).found.map Prod.snd, sectionShaped base s := by
    intro s hs
    obtain ⟨q, hq, rfl⟩ := List.mem_map.mp hs
    exact h2 q hq
  unfold extractSections
  apply mem_ite_prop
  · intro s hs
    simp only [List.mem_singleton] at hs
    rw [hs]
    exact ⟨show dashCount "default-0" = 1 by decide, rfl⟩
  apply mem_ite_prop
  · cases hb : cssFirst t "body"
    · simp
    · intro s hs
      simp only [List.mem_singleton] at hs
      rw [hs]
      exact parseSection_shaped _ base 0 "unknown" (by decide)
  apply mem_ite_prop
  · intro s hs
    rcases List.mem_append.mp hs with hs | hs
    · exact hA s hs
    · exact extractByHeadings_shaped t base _ s hs
  · exact hA

/-! ## Merge lemmas -/

theorem mergeRest_length : ∀ (k : Nat) (ps : List (List Section)),
    (mergeRest k ps).length = (ps.map List.length).sum := by
  intro k ps
  induction ps generalizing k with
  | nil => rfl
  | cons p rest ih =>
    show (p.map (renamePage k) ++ mergeRest (k + 1) rest).length = _
    rw [List.length_append, List.length_map, ih (k + 1)]
    simp

theorem mergeRest_mem_of : ∀ (k : Nat) (ps : List (List Section)) (i : Nat)
    (l : List Section) (s : Section), ps.get? i = some l → s ∈ l →
    renamePage (k + i) s ∈ mergeRest k ps := by
  intro k ps
  induction ps generalizing k with
  | nil => intro i l s h _; simp at h
  | cons p rest ih =>
    intro i l s hget hs
    cases i with
    | zero =>
      simp only [List.get?] at hget
      cases hget
      exact List.mem_append.mpr (Or.inl (List.mem_map.mpr ⟨s, hs, by rw [Nat.add_zero]⟩))
    | succ i =>
      simp only [List.get?] at hget
      have := ih (k + 1) i l s hget hs
      have harith : k + 1 + i = k + (i + 1) := by omega
      rw [harith] at this
      exact List.mem_append.mpr (Or.inr this)

theorem mergeRest_mem : ∀ (k : Nat) (ps : List (List Section)) (s : Section),
    s ∈ mergeRest k ps →
    ∃ i l s0, ps.get? i = some l ∧ s0 ∈ l ∧ s = renamePage (k + i) s0 := by
  intro k ps
  induction ps generalizing k with
  | nil => intro s h; simp [mergeRest] at h
  | cons p rest ih =>
    intro s hs
    rcases List.mem_append.mp hs with hs | hs
    · obtain ⟨s0, hs0, rfl⟩ := List.mem_map.mp hs
      exact ⟨0, p, s0, rfl, hs0, by rw [Nat.add_zero]⟩
    · obtain ⟨i, l, s0, hget, hs0, rfl⟩ := ih (k + 1) s hs
      exact ⟨i + 1, l, s0, hget, hs0, by rw [show k + (i + 1) = k + 1 + i by omega]⟩

theorem parseAndMergePages_cons (selectolax : String → DomTree) (h0 : String)
    (htmls : List String) (base : String) :
    parseAndMergePages selectolax (h0 :: htmls) base =
      .ok { url := base, meta := extractMeta (selectolax h0) base,
            sections := mergeSections (extractSections (selectolax h0) base)
              (htmls.map fun pg => extractSections (selectolax pg) base) } := by
  cases htmls with
  | nil => simp [parseAndMergePages, parsePage, mergeSections, mergeRest]
  | cons a rest => rfl

/-- C4 — merging n per-page section lists yields exactly the sum of the
per-page counts; page 1's sections lead unmodified; every page-k (k ≥ 2)
section reappears with its id suffixed "-page{k}" and its label suffixed
" (Page {k})" while its content is untouched; and no id collides, neither
between page 1 and a later page nor between two distinct later pages. -/
theorem merge_pages_spec (selectolax : String → DomTree) (h0 : String) (htmls : List String)
    (base : String) (res : PageResult)
    (hok : parseAndMergePages selectolax (h0 :: htmls) base = .ok res) :
    res.sections.length =
        (((h0 :: htmls).map fun pg => (extractSections (selectolax pg) base).length).sum) ∧
      res.sections.take (extractSections (selectolax h0) base).length =
        extractSections (selectolax h0) base ∧
      (∀ i pg, htmls.get? i = some pg →
        ∀ s ∈ extractSections (selectolax pg) base,
          renamePage (2 + i) s ∈ res.sections ∧
          (renamePage (2 + i) s).id = s.id ++ "-page" ++ Nat.repr (2 + i) ∧
          (renamePage (2 + i) s).label = s.label ++ " (Page " ++ Nat.repr (2 + i) ++ ")" ∧
          (renamePage (2 + i) s).content = s.content ∧
          List.IsSuffix ("-page" ++ Nat.repr (2 + i)).data (renamePage (2 + i) s).id.data) ∧
      (∀ s1 ∈ extractSections (selectolax h0) base, ∀ i pg, htmls.get? i = some pg →
        ∀ s2 ∈ extractSections (selectolax pg) base,
          s1.id ≠ (renamePage (2 + i) s2).id) ∧
      (∀ i j pgi pgj, htmls.get? i = some pgi → htmls.get? j = some pgj → i ≠ j →
        ∀ si ∈ extractSections (selectolax pgi) base,
          ∀ sj ∈ extractSections (selectolax pgj) base,
            (renamePage (2 + i) si).id ≠ (renamePage (2 + j) sj).id) := by
  rw [parseAndMergePages_cons] at hok
  injection hok with h
  subst h
  dsimp only
  refine ⟨?_, ?_, ?_, ?_, ?_⟩
  · unfold mergeSections
    rw [List.length_append, mergeRest_length, List.map_map, List.map_cons, List.sum_cons]
    rfl
  · unfold mergeSections
    exact List.take_left _ _
  · intro i pg hget s hs
    refine ⟨?_, renamePage_id (2 + i) s, renamePage_label (2 + i) s,
      renamePage_content (2 + i) s, ?_⟩
    · unfold mergeSections
      apply List.mem_append.mpr
      right
      apply mergeRest_mem_of 2 _ i (extractSections (selectolax pg) base) s _ hs
      rw [List.get?_map, hget]
      rfl
    · exact ⟨s.id.data, by simp only [renamePage_id, String.data_append, List.append_assoc]⟩
  · intro s1 hs1 i pg hget s2 hs2 heq
    have h1 : dashCount s1.id = 1 := (extractSections_shaped (selectolax h0) base s1 hs1).1
    have h2 : dashCount s2.id = 1 := (extractSections_shaped (selectolax pg) base s2 hs2).1
    have hd := congrArg dashCount heq
    rw [dashCount_renamePage, h1, h2] at hd
    omega
  · intro i j pgi pgj _ _ hij si _ sj _
    rw [renamePage_id, renamePage_id]
    exact appended_page_id_ne si.id sj.id (2 + i) (2 + j) (by omega)

theorem merge_pages_spec_witness :
    c4Res.sections.length =
      ((["H1", "H2"].map fun pg =>
        (extractSections (twoPageParse pg) "http://base/").length).sum) :=
  (merge_pages_spec twoPageParse "H1" ["H2"] "http://base/" c4Res
    (parseAndMergePages_cons twoPageParse "H1" ["H2"] "http://base/")).1

/-- C10 — every page of a multi-page acquisition is parsed against the
original request URL, so every section of the merged document (later pages
included) carries sourceUrl = the origin URL. -/
theorem merged_sections_source_url (selectolax : String → DomTree) (h0 : String)
    (htmls : List String) (base : String) (res : PageResult)
    (hok : parseAndMergePages selectolax (h0 :: htmls) base = .ok res) :
    ∀ s ∈ res.sections, s.sourceUrl = base := by
  rw [parseAndMergePages_cons] at hok
  injection hok with h
  subst h
  dsimp only
  unfold mergeSections
  intro s hs
  rcases List.mem_append.mp hs with hs | hs
  · exact (extractSections_shaped (selectolax h0) base s hs).2
  · obtain ⟨i, l, s0, hget, hs0, rfl⟩ := mergeRest_mem 2 _ s hs
    rw [renamePage_sourceUrl]
    rw [List.get?_map] at hget
    cases hpg : htmls.get? i with
    | none => rw [hpg] at hget; cases hget
    | some pg =>
      rw [hpg] at hget
      injection hget with hl
      subst hl
      exact (extractSections_shaped (selectolax pg) base s0 hs0).2

theorem merged_sections_source_url_witness :
    (parseSection (textElement 1 "body" "Alpha text") "http://base/" 0 "unknown").sourceUrl =
      "http://base/" := by
  refine merged_sections_source_url twoPageParse "H1" ["H2"] "http://base/" c4Res
    (parseAndMergePages_cons twoPageParse "H1" ["H2"] "http://base/") _ ?_
  have h : c4Res.sections =
      parseSection (textElement 1 "body" "Alpha text") "http://base/" 0 "unknown" ::
        [renamePage 2 (parseSection (textElement 1 "body" "Beta text") "http://base/" 0
          "unknown")] := rfl
  rw [h]
  exact List.mem_cons_self ..

/-! ## C3: symbolic evaluation of the classifier on a marker-plus-long-text page -/

theorem findSub_cons_neg (pat : List Char) (c : Char) (t : List Char)
    (h : pat.isPrefixOf (c :: t) = false) :
    findSub pat (c :: t) = (findSub pat t).map (· + 1) := by
  simp only [findSub]
  rw [h]
  simp

theorem findSub_cons_pos (pat : List Char) (c : Char) (t : List Char)
    (h : pat.isPrefixOf (c :: t) = true) :
    findSub pat (c :: t) = some 0 := by
  simp only [findSub]
  rw [h]
  simp

theorem findSub_replicate_skip (p : Char) (ps : List Char) (a : Char) (hpa : (p == a) = false) :
    ∀ (n : Nat) (ys : List Char),
      findSub (p :: ps) (List.replicate n a ++ ys) =
        (findSub (p :: ps) ys).map (· + n) := by
  intro n
  induction n with
  | zero =>
    intro ys
    rw [List.replicate_zero, List.nil_append]
    cases findSub (p :: ps) ys <;> simp
  | succ n ih =>
    intro ys
    rw [List.replicate_succ, List.cons_append,
      findSub_cons_neg _ _ _ (by simp [List.isPrefixOf, hpa]), ih ys]
    cases findSub (p :: ps) ys <;> simp
    omega

theorem ciPrefix_cons_neg (p c : Char) (ps t : List Char) (hc : ¬(c.toLower = p)) :
    ciPrefix (p :: ps) (c :: t) = none := by
  simp [ciPrefix, hc]

theorem ciPrefix_cons_pos (p c : Char) (ps t : List Char) (hc : c.toLower = p) :
    ciPrefix (p :: ps) (c :: t) = ciPrefix ps t := by
  simp [ciPrefix, hc]

theorem removeTagPairAux_cons_neg (name : List Char) (fuel : Nat) (c : Char) (t : List Char)
    (hf : fuel ≠ 0) (h : ciPrefix ('<' :: name) (c :: t) = none) :
    removeTagPairAux name fuel (c :: t) = c :: removeTagPairAux name (fuel - 1) t := by
  cases fuel with
  | zero => exact absurd rfl hf
  | succ fuel =>
    simp only [removeTagPairAux]
    rw [h]
    rfl

theorem removeTagPairAux_replicate (name : List Char) (c : Char) (hc : ¬(c.toLower = '<')) :
    ∀ (n fuel : Nat) (ys : List Char),
      removeTagPairAux name (n + fuel) (List.replicate n c ++ ys) =
        List.replicate n c ++ removeTagPairAux name fuel ys := by
  intro n
  induction n with
  | zero =>
    intro fuel ys
    rw [List.replicate_zero, List.nil_append, Nat.zero_add, List.nil_append]
  | succ n ih =>
    intro fuel ys
    rw [List.replicate_succ, List.cons_append]
    have harith : n + 1 + fuel = (n + fuel) + 1 := by omega
    rw [harith, removeTagPairAux_cons_neg _ _ _ _ (by omega) (ciPrefix_cons_neg _ _ _ _ hc)]
    rw [Nat.add_sub_cancel, ih fuel ys, List.cons_append]

theorem replaceTagsAux_cons_neg (fuel : Nat) (c : Char) (t : List Char)
    (hf : fuel ≠ 0) (hc : ¬(c = '<')) :
    replaceTagsAux fuel (c :: t) = c :: replaceTagsAux (fuel - 1) t := by
  cases fuel with
  | zero => exact absurd rfl hf
  | succ fuel =>
    simp only [replaceTagsAux]
    rw [if_neg hc]
    rfl

theorem replaceTagsAux_replicate (c : Char) (hc : ¬(c = '<')) :
    ∀ (n fuel : Nat) (ys : List Char),
      replaceTagsAux (n + fuel) (List.replicate n c ++ ys) =
        List.replicate n c ++ replaceTagsAux fuel ys := by
  intro n
  induction n with
  | zero =>
    intro fuel ys
    rw [List.replicate_zero, List.nil_append, Nat.zero_add, List.nil_append]
  | succ n ih =>
    intro fuel ys
    rw [List.replicate_succ, List.cons_append]
    have harith : n + 1 + fuel = (n + fuel) + 1 := by omega
    rw [harith, replaceTagsAux_cons_neg _ _ _ (by omega) hc]
    rw [Nat.add_sub_cancel, ih fuel ys, List.cons_append]

theorem replaceTagsAux_body (fuel : Nat) (hf : fuel ≠ 0) (rest : List Char) :
    replaceTagsAux fuel ("<body>".data ++ rest) = ' ' :: replaceTagsAux (fuel - 1) rest := by
  cases fuel with
  | zero => exact absurd rfl hf
  | succ fuel =>
    show replaceTagsAux (fuel + 1) ('<' :: ("body>".data ++ rest)) = _
    simp only [replaceTagsAux]
    simp [List.dropWhile, List.takeWhile]

theorem replaceTagsAux_divreact (fuel : Nat) (hf : fuel ≠ 0) (rest : List Char) :
    replaceTagsAux fuel ("<div data-reactroot>".data ++ rest) =
      ' ' :: replaceTagsAux (fuel - 1) rest := by
  cases fuel with
  | zero => exact absurd rfl hf
  | succ fuel =>
    show replaceTagsAux (fuel + 1) ('<' :: ("div data-reactroot>".data ++ rest)) = _
    simp only [replaceTagsAux]
    simp [List.dropWhile, List.takeWhile]

/- the concrete facts -/

theorem c3_data : c3Html.data =
    "<html><body><div data-reactroot>".data ++
      (List.replicate 2000 'a' ++ "</div></body></html>".data) := by
  unfold c3Html c3Filler
  rw [String.data_append, String.data_append, List.append_assoc]

theorem c3_lower_data : (pyLower c3Html).data =
    "<html><body><div data-reactroot>".data ++
      (List.replicate 2000 'a' ++ "</div></body></html>".data) := by
  show c3Html.data.map Char.toLower = _
  rw [c3_data, List.map_append, List.map_append, List.map_replicate]
  rw [show "<html><body><div data-reactroot>".data.map Char.toLower =
      "<html><body><div data-reactroot>".data from by decide,
    show Char.toLower 'a' = 'a' from by decide,
    show "</div></body></html>".data.map Char.toLower = "</div></body></html>".data from by decide]

theorem c3_bs : findSub "<body".data (pyLower c3Html).data = some 6 := by
  rw [c3_lower_data]
  generalize List.replicate 2000 'a' ++ "</div></body></html>".data = R
  simp [findSub_cons_neg, findSub_cons_pos, List.isPrefixOf]

theorem c3_be : findSub "</body>".data (pyLower c3Html).data = some 2038 := by
  rw [c3_lower_data, show "</body>".data = '<' :: "/body>".data from by decide]
  have h1 : findSub ('<' :: "/body>".data)
      (List.replicate 2000 'a' ++ "</div></body></html>".data) = some 2006 := by
    rw [findSub_replicate_skip '<' _ 'a' (by decide)]
    rw [show findSub ('<' :: "/body>".data) "</div></body></html>".data = some 6 from by decide]
    rfl
  generalize hR : List.replicate 2000 'a' ++ "</div></body></html>".data = R at h1
  simp [findSub_cons_neg, findSub_cons_pos, h1, List.isPrefixOf]

theorem containsSub_iff (pat l : List Char) : containsSub pat l = true ↔ List.IsInfix pat l := by
  induction l with
  | nil =>
    simp [containsSub, List.isEmpty_iff]
  | cons c t ih =>
    simp [containsSub, List.infix_cons_iff, List.isPrefixOf_iff_prefix, ih]

theorem not_containsSub_of_absent (pat l : List Char) (c : Char) (hc : c ∈ pat)
    (hl : c ∉ l) : containsSub pat l = false := by
  cases h : containsSub pat l
  · rfl
  · exact absurd (((containsSub_iff pat l).mp h).subset hc) hl

theorem containsSub_append_left (pat xs ys : List Char) (h : containsSub pat xs = true) :
    containsSub pat (xs ++ ys) = true := by
  rw [containsSub_iff] at h ⊢
  exact h.trans (List.prefix_append xs ys).isInfix

theorem c3_slice : pySlice c3Html.data 6 2038 =
    "<body><div data-reactroot>".data ++ (List.replicate 2000 'a' ++ "</div>".data) := by
  unfold pySlice
  rw [c3_data]
  rw [List.take_append_eq_append_take]
  rw [show "<html><body><div data-reactroot>".data.take 2038 =
      "<html><body><div data-reactroot>".data from by decide]
  rw [show (2038 : Nat) - "<html><body><div data-reactroot>".data.length = 2006 from by decide]
  rw [List.take_append_eq_append_take, List.take_replicate]
  rw [show min 2006 2000 = 2000 from by decide]
  rw [show (2006 : Nat) - (List.replicate 2000 'a').length = 6 from by
    rw [List.length_replicate]]
  rw [show "</div></body></html>".data.take 6 = "</div>".data from by decide]
  rw [List.drop_append_eq_append_drop]
  rw [show "<html><body><div data-reactroot>".data.drop 6 =
      "<body><div data-reactroot>".data from by decide]
  rw [show (6 : Nat) - "<html><body><div data-reactroot>".data.length = 0 from by decide]
  rw [List.drop_zero]

theorem c3_clean_script :
    removeTagPair "script".data
        ("<body><div data-reactroot>".data ++ (List.replicate 2000 'a' ++ "</div>".data)) =
      "<body><div data-reactroot>".data ++ (List.replicate 2000 'a' ++ "</div>".data) := by
  unfold removeTagPair
  rw [show ("<body><div data-reactroot>".data ++
      (List.replicate 2000 'a' ++ "</div>".data)).length = 2032 from by
    rw [List.length_append, List.length_append, List.length_replicate]
    decide]
  have h1 : removeTagPairAux "script".data 2006 (List.replicate 2000 'a' ++ "</div>".data) =
      List.replicate 2000 'a' ++ "</div>".data := by
    rw [show (2006 : Nat) = 2000 + 6 from by norm_num,
      removeTagPairAux_replicate _ 'a' (by decide)]
    rw [show removeTagPairAux "script".data 6 "</div>".data = "</div>".data from by decide]
  generalize hR : List.replicate 2000 'a' ++ "</div>".data = R at h1 ⊢
  simp [removeTagPairAux_cons_neg, ciPrefix_cons_neg, ciPrefix_cons_pos, h1]

theorem c3_clean_style :
    removeTagPair "style".data
        ("<body><div data-reactroot>".data ++ (List.replicate 2000 'a' ++ "</div>".data)) =
      "<body><div data-reactroot>".data ++ (List.replicate 2000 'a' ++ "</div>".data) := by
  unfold removeTagPair
  rw [show ("<body><div data-reactroot>".data ++
      (List.replicate 2000 'a' ++ "</div>".data)).length = 2032 from by
    rw [List.length_append, List.length_append, List.length_replicate]
    decide]
  have h1 : removeTagPairAux "style".data 2006 (List.replicate 2000 'a' ++ "</div>".data) =
      List.replicate 2000 'a' ++ "</div>".data := by
    rw [show (2006 : Nat) = 2000 + 6 from by norm_num,
      removeTagPairAux_replicate _ 'a' (by decide)]
    rw [show removeTagPairAux "style".data 6 "</div>".data = "</div>".data from by decide]
  generalize hR : List.replicate 2000 'a' ++ "</div>".data = R at h1 ⊢
  simp [removeTagPairAux_cons_neg, ciPrefix_cons_neg, ciPrefix_cons_pos, h1]

theorem c3_replace :
    replaceTags ("<body><div data-reactroot>".data ++
        (List.replicate 2000 'a' ++ "</div>".data)) =
      ' ' :: ' ' :: (List.replicate 2000 'a' ++ [' ']) := by
  unfold replaceTags
  rw [show ("<body><div data-reactroot>".data ++
      (List.replicate 2000 'a' ++ "</div>".data)).length = 2032 from by
    rw [List.length_append, List.length_append, List.length_replicate]
    decide]
  rw [show "<body><div data-reactroot>".data =
      "<body>".data ++ "<div data-reactroot>".data from by decide, List.append_assoc]
  rw [replaceTagsAux_body 2032 (by norm_num)]
  rw [show (2032 : Nat) - 1 = 2031 from by norm_num]
  rw [replaceTagsAux_divreact 2031 (by norm_num)]
  rw [show (2031 : Nat) - 1 = 2030 from by norm_num]
  rw [show (2030 : Nat) = 2000 + 30 from by norm_num,
    replaceTagsAux_replicate 'a' (by decide)]
  rw [show replaceTagsAux 30 "</div>".data = [' '] from by decide]

theorem c3_strip_len :
    (pyStripL (' ' :: ' ' :: (List.replicate 2000 'a' ++ [' ']))).length = 2000 := by
  unfold pyStripL
  rw [show (2000 : Nat) = 1999 + 1 from by norm_num, List.replicate_succ, List.cons_append]
  rw [List.dropWhile_cons_of_pos (by decide), List.dropWhile_cons_of_pos (by decide),
    List.dropWhile_cons_of_neg (by decide)]
  rw [List.reverse_cons, List.reverse_append, List.reverse_replicate]
  rw [show ([' '] : List Char).reverse = [' '] from rfl]
  rw [List.singleton_append, List.cons_append]
  rw [List.dropWhile_cons_of_pos (by decide)]
  rw [show (1999 : Nat) = 1998 + 1 from by norm_num, List.replicate_succ, List.cons_append]
  rw [List.dropWhile_cons_of_neg (by decide)]
  rw [List.length_reverse, List.length_cons, List.length_append, List.length_replicate]
  simp

theorem bodyTextLength_eq (html : String) (bs be : Nat)
    (h1 : findSub "<body".data (pyLower html).data = some bs)
    (h2 : findSub "</body>".data (pyLower html).data = some be) :
    bodyTextLength html = some (pyStripL (replaceTags (removeTagPair "style".data
      (removeTagPair "script".data (pySlice html.data bs be))))).length := by
  show (match findSub "<body".data (pyLower html).data,
      findSub "</body>".data (pyLower html).data with
    | some bs, some be =>
      some (pyStripL (replaceTags (removeTagPair "style".data
        (removeTagPair "script".data (pySlice html.data bs be))))).length
    | _, _ => none) = _
  rw [h1, h2]

theorem c3_bodyTextLength : bodyTextLength c3Html = some 2000 := by
  rw [bodyTextLength_eq c3Html 6 2038 c3_bs c3_be]
  rw [c3_slice, c3_clean_script, c3_clean_style, c3_replace, c3_strip_len]

theorem c3_no_char (c : Char) (h1 : c ∉ "<html><body><div data-reactroot>".data)
    (h2 : ¬(c = 'a')) (h3 : c ∉ "</div></body></html>".data) :
    c ∉ (pyLower c3Html).data := by
  rw [c3_lower_data]
  intro hmem
  rcases List.mem_append.mp hmem with h | h
  · exact h1 h
  · rcases List.mem_append.mp h with h | h
    · exact h2 (List.eq_of_mem_replicate h)
    · exact h3 h

theorem c3_marker : hasJsFrameworkMarker c3Html = true := by
  have hmark : strIn "data-reactroot" (pyLower c3Html) = true := by
    unfold strIn
    rw [c3_lower_data]
    apply containsSub_append_left
    decide
  unfold hasJsFrameworkMarker
  simp [jsMarkers, hmark]

theorem c3_scroll : (infiniteScrollIndicators.any fun m => strIn m (pyLower c3Html)) = false := by
  have h1 : strIn "infinite-scroll" (pyLower c3Html) = false := by
    unfold strIn
    exact not_containsSub_of_absent _ _ 's' (by decide)
      (c3_no_char 's' (by decide) (by decide) (by decide))
  have h2 : strIn "infinite_scroll" (pyLower c3Html) = false := by
    unfold strIn
    exact not_containsSub_of_absent _ _ 's' (by decide)
      (c3_no_char 's' (by decide) (by decide) (by decide))
  have h3 : strIn "data-infinite" (pyLower c3Html) = false := by
    unfold strIn
    exact not_containsSub_of_absent _ _ 'n' (by decide)
      (c3_no_char 'n' (by decide) (by decide) (by decide))
  have h4 : strIn "scroll-container" (pyLower c3Html) = false := by
    unfold strIn
    exact not_containsSub_of_absent _ _ 's' (by decide)
      (c3_no_char 's' (by decide) (by decide) (by decide))
  have h5 : strIn "lazy-load" (pyLower c3Html) = false := by
    unfold strIn
    exact not_containsSub_of_absent _ _ 'z' (by decide)
      (c3_no_char 'z' (by decide) (by decide) (by decide))
  have h6 : strIn "data-scroll" (pyLower c3Html) = false := by
    unfold strIn
    exact not_containsSub_of_absent _ _ 's' (by decide)
      (c3_no_char 's' (by decide) (by decide) (by decide))
  simp [infiniteScrollIndicators, h1, h2, h3, h4, h5, h6]

theorem needsJsRendering_false_of (html url : String) (n : Nat)
    (hu : (jsUrlPatterns.any fun p => strIn p (pyLower url)) = false)
    (hs : (infiniteScrollIndicators.any fun m => strIn m (pyLower html)) = false)
    (hb : bodyTextLength html = some n) (h500 : ¬(n < 500)) (h2000 : ¬(n < 2000)) :
    needsJsRendering html url = false := by
  show (if (jsUrlPatterns.any fun p => strIn p (pyLower url)) = true then true
    else if (infiniteScrollIndicators.any fun m => strIn m (pyLower html)) = true then true
    else match bodyTextLength html with
      | none => true
      | some textLength =>
        if textLength < 500 then true
        else if hasJsFrameworkMarker html = true ∧ textLength < 2000 then true
        else false) = false
  rw [hu, hs, hb]
  simp [h500, h2000]

/-- C3 counterexample: a page whose markup carries the JS-framework root
marker `data-reactroot` but whose visible body text is 2000 characters is
classified as NOT needing rendering: the framework-marker rule is not a
standalone first-true-wins rule; it only lowers the text-length threshold
from 500 to 2000. -/
theorem c3_marker_long_text_counterexample :
    hasJsFrameworkMarker c3Html = true ∧ needsJsRendering c3Html c3Url = false :=
  ⟨c3_marker, needsJsRendering_false_of c3Html c3Url 2000 (by decide) c3_scroll
    c3_bodyTextLength (by norm_num) (by norm_num)⟩

/-- C3 (amended) — a JS-framework root marker forces rendering whenever the
extracted visible body text is shorter than 2000 characters (in particular
whenever the body cannot be located); with 2000 or more characters of text
the marker alone does not trigger rendering. -/
theorem marker_forces_rendering_when_text_short (html url : String)
    (hm : hasJsFrameworkMarker html = true)
    (hlen : (bodyTextLength html).getD 0 < 2000) :
    needsJsRendering html url = true := by
  show (if (jsUrlPatterns.any fun p => strIn p (pyLower url)) = true then true
    else if (infiniteScrollIndicators.any fun m => strIn m (pyLower html)) = true then true
    else match bodyTextLength html with
      | none => true
      | some textLength =>
        if textLength < 500 then true
        else if hasJsFrameworkMarker html = true ∧ textLength < 2000 then true
        else false) = true
  by_cases hu : (jsUrlPatterns.any fun p => strIn p (pyLower url)) = true
  · rw [if_pos hu]
  · rw [if_neg hu]
    by_cases hsc : (infiniteScrollIndicators.any fun m => strIn m (pyLower html)) = true
    · rw [if_pos hsc]
    · rw [if_neg hsc]
      cases hb : bodyTextLength html with
      | none => rfl
      | some n =>
        rw [hb] at hlen
        simp only [Option.getD_some] at hlen
        dsimp only
        by_cases h5 : n < 500
        · rw [if_pos h5]
        · rw [if_neg h5, if_pos ⟨hm, hlen⟩]

theorem marker_forces_rendering_when_text_short_witness :
    hasJsFrameworkMarker c3SmallHtml = true ∧ (bodyTextLength c3SmallHtml).getD 0 < 2000 ∧
      needsJsRendering c3SmallHtml c3Url = true :=
  ⟨by decide, by decide,
    marker_forces_rendering_when_text_short c3SmallHtml c3Url (by decide) (by decide)⟩
